import Mathlib

/-!
# Verification of the random-native-network round-coordination layer

A shallow embedding, in Lean 4, of the Go sources of the
`random-native-network` proof of concept: the bundle codec (`dkg/dto.go` and
the justification codec variant), the VRF signature-collection round
(`Node.Sign`, `Node.SignVRF`, `Node.HandleSignature`,
`Node.StartRandomNumberGeneration`, `Node.RecoverBLSSignature`,
`Node.GenerateRandomNumber`), the two board transports (`HttpBoard`,
`BoardP2P`) and the rng pubsub protocol read loops, the HTTP handlers of
`main.go`, and the `waitForPeers` liveness gate.

Modelling conventions:

* Go byte slices are `List Nat`, each entry intended to be `< 256`
  (`bytesWF`); Go `uint32` values are `Nat` (intended `< 2^32`), Go `int32`
  values are `Int`.
* The elliptic-curve primitives (`kyber`) are out of scope for the sources
  and are treated as an external collaborator: points, scalars, the
  threshold-BLS sign/recover functions are *parameters* of the embedding,
  and theorems that depend on their behaviour take the collaborator's
  documented contract as an explicit hypothesis.
* Go `encoding/json` is embedded at the level of JSON *values* (`Json`
  below): `json.Marshal` of a DTO becomes a total function into `Json`,
  `json.Unmarshal` a partial function out of it, mirroring the struct tags
  of the source.  The textual serialization of a JSON value is out of
  scope (the spec treats the wire encoding purely as a format).
* Effectful code becomes explicit state passing: a board or node becomes a
  state structure, each Go method a function from the old state (plus the
  outcomes of any network calls, supplied as oracle parameters) to the new
  state.  Channels of the Go sources become queues (`List`); a send is an
  append, and for the per-request notification channels we record the
  number of notifications sent.
-/

/-! ## Bytes (Go `[]byte`) -/

/-- A Go byte slice: a list of naturals, well-formed when every entry is
below 256. -/
abbrev Bytes := List Nat

/-- Well-formedness of a byte slice: every entry fits in one byte. -/
def bytesWF (bs : Bytes) : Bool :=
  bs.all (fun b => decide (b < 256))

/-! ## Hex codec (Go `encoding/hex`)

`hex.EncodeToString` maps each byte to two lowercase hex digits;
`hex.DecodeString` inverts it, failing on an odd-length input or a
non-hex character. -/

/-- One hex digit character of Go's `hextable` `"0123456789abcdef"`. -/
def hexDigit (d : Nat) : Char :=
  if d < 10 then Char.ofNat (48 + d) else Char.ofNat (87 + d)

/-- Go `hex.Encode`: each byte becomes its high then low nibble. -/
def hexEncodeChars : Bytes → List Char
  | [] => []
  | b :: bs => hexDigit (b / 16) :: hexDigit (b % 16) :: hexEncodeChars bs

/-- Go `hex.EncodeToString`. -/
def hexEncodeToString (bs : Bytes) : String :=
  String.mk (hexEncodeChars bs)

/-- Go `fromHexChar`: the value of one hex digit, `none` for a non-digit. -/
def fromHexChar (c : Char) : Option Nat :=
  if 48 ≤ c.toNat ∧ c.toNat ≤ 57 then some (c.toNat - 48)
  else if 97 ≤ c.toNat ∧ c.toNat ≤ 102 then some (c.toNat - 97 + 10)
  else if 65 ≤ c.toNat ∧ c.toNat ≤ 70 then some (c.toNat - 65 + 10)
  else none

/-- Go `hex.Decode` over the character list: consumes two digits per output
byte, failing on an invalid digit or an odd-length tail. -/
def hexDecodeChars : List Char → Except String Bytes
  | [] => .ok []
  | [_] => .error "encoding/hex: odd length hex string"
  | c1 :: c2 :: rest =>
    match fromHexChar c1, fromHexChar c2 with
    | some hi, some lo => do
        let bs ← hexDecodeChars rest
        return (hi * 16 + lo) :: bs
    | _, _ => .error "encoding/hex: invalid byte"

/-- Go `hex.DecodeString`. -/
def hexDecodeString (s : String) : Except String Bytes :=
  hexDecodeChars s.data

theorem fromHexChar_hexDigit {d : Nat} (hd : d < 16) :
    fromHexChar (hexDigit d) = some d := by
  revert d
  decide

/-- Decoding inverts encoding on well-formed byte slices. -/
theorem hexDecodeChars_hexEncodeChars {bs : Bytes} (h : bytesWF bs = true) :
    hexDecodeChars (hexEncodeChars bs) = .ok bs := by
  induction bs with
  | nil => rfl
  | cons b bs ih =>
    simp only [bytesWF, List.all_cons, Bool.and_eq_true, decide_eq_true_eq] at h
    obtain ⟨hb, hbs⟩ := h
    have hhi : b / 16 < 16 := by omega
    have hlo : b % 16 < 16 := by omega
    simp only [hexEncodeChars, hexDecodeChars,
      fromHexChar_hexDigit hhi, fromHexChar_hexDigit hlo,
      ih (by simpa [bytesWF] using hbs)]
    have : b / 16 * 16 + b % 16 = b := by omega
    simp [this, Except.bind]

/-- String-level statement of the hex round trip. -/
theorem hexDecodeString_hexEncodeToString {bs : Bytes} (h : bytesWF bs = true) :
    hexDecodeString (hexEncodeToString bs) = .ok bs :=
  hexDecodeChars_hexEncodeChars h

/-! ## SHA-256 (Go `crypto/sha256`, as invoked by `sha256.Sum256`)

32-bit words are `Nat` values reduced mod `2^32` by `w32`. -/

/-- Truncation to a 32-bit word. -/
def w32 (x : Nat) : Nat := x % 4294967296

/-- Rotates a word right by `n` bit positions (its argument is assumed
already below `2^32`). -/
def rotr32 (n x : Nat) : Nat := w32 ((x >>> n) ||| (x <<< (32 - n)))

/-- Bitwise complement on 32-bit words. -/
def not32 (x : Nat) : Nat := x ^^^ 4294967295

def sha256Ch (x y z : Nat) : Nat := (x &&& y) ^^^ (not32 x &&& z)

def sha256Maj (x y z : Nat) : Nat := (x &&& y) ^^^ (x &&& z) ^^^ (y &&& z)

def sigma0 (x : Nat) : Nat := rotr32 7 x ^^^ rotr32 18 x ^^^ (x >>> 3)

def sigma1 (x : Nat) : Nat := rotr32 17 x ^^^ rotr32 19 x ^^^ (x >>> 10)

def bigSigma0 (x : Nat) : Nat := rotr32 2 x ^^^ rotr32 13 x ^^^ rotr32 22 x

def bigSigma1 (x : Nat) : Nat := rotr32 6 x ^^^ rotr32 11 x ^^^ rotr32 25 x

/-- The 64 round constants of FIPS 180-4 (the fractional parts of the cube
roots of the first 64 primes), written in decimal. -/
def sha256K : List Nat :=
  [1116352408, 1899447441, 3049323471, 3921009573,
   961987163, 1508970993, 2453635748, 2870763221,
   3624381080, 310598401, 607225278, 1426881987,
   1925078388, 2162078206, 2614888103, 3248222580,
   3835390401, 4022224774, 264347078, 604807628,
   770255983, 1249150122, 1555081692, 1996064986,
   2554220882, 2821834349, 2952996808, 3210313671,
   3336571891, 3584528711, 113926993, 338241895,
   666307205, 773529912, 1294757372, 1396182291,
   1695183700, 1986661051, 2177026350, 2456956037,
   2730485921, 2820302411, 3259730800, 3345764771,
   3516065817, 3600352804, 4094571909, 275423344,
   430227734, 506948616, 659060556, 883997877,
   958139571, 1322822218, 1537002063, 1747873779,
   1955562222, 2024104815, 2227730452, 2361852424,
   2428436474, 2756734187, 3204031479, 3329325298]

/-- The eight-word hash state of the compression function. -/
structure Hash8 where
  a : Nat
  b : Nat
  c : Nat
  d : Nat
  e : Nat
  f : Nat
  g : Nat
  h : Nat
deriving DecidableEq

/-- The initial hash value of FIPS 180-4 (the fractional parts of the
square roots of the first 8 primes), written in decimal. -/
def sha256Init : Hash8 :=
  ⟨1779033703, 3144134277, 1013904242, 2773480762,
   1359893119, 2600822924, 528734635, 1541459225⟩

/-- Big-endian encoding of `n` into `width` bytes. -/
def natToBytesBE : Nat → Nat → Bytes
  | 0, _ => []
  | width + 1, n => natToBytesBE width (n / 256) ++ [n % 256]

/-- The SHA-256 padding: a `0x80` byte, zeros up to 56 mod 64, and the
bit length as a 64-bit big-endian integer. -/
def sha256Pad (msg : Bytes) : Bytes :=
  msg ++ 0x80 :: List.replicate ((119 - msg.length % 64) % 64) 0
      ++ natToBytesBE 8 (8 * msg.length)

/-- Four bytes at a time, big endian, into 32-bit words. -/
def bytesToWordsBE : Bytes → List Nat
  | b0 :: b1 :: b2 :: b3 :: rest =>
      (b0 * 16777216 + b1 * 65536 + b2 * 256 + b3) :: bytesToWordsBE rest
  | _ => []

/-- Extends the 16-word message block to the 64-word schedule; called with
fuel 48. -/
def sha256Extend : Nat → List Nat → List Nat
  | 0, ws => ws
  | fuel + 1, ws =>
      let i := ws.length
      let x := w32 (sigma1 (ws.getD (i - 2) 0) + ws.getD (i - 7) 0
                    + sigma0 (ws.getD (i - 15) 0) + ws.getD (i - 16) 0)
      sha256Extend fuel (ws ++ [x])

/-- One round of the SHA-256 compression function. -/
def sha256Round (st : Hash8) (ki wi : Nat) : Hash8 :=
  let t1 := w32 (st.h + bigSigma1 st.e + sha256Ch st.e st.f st.g + ki + wi)
  let t2 := w32 (bigSigma0 st.a + sha256Maj st.a st.b st.c)
  ⟨w32 (t1 + t2), st.a, st.b, st.c, w32 (st.d + t1), st.e, st.f, st.g⟩

/-- Compressing one 64-byte chunk into the hash state. -/
def sha256Compress (st : Hash8) (chunk : Bytes) : Hash8 :=
  let ws := sha256Extend 48 (bytesToWordsBE chunk)
  let fin := (List.zip sha256K ws).foldl (fun s kw => sha256Round s kw.1 kw.2) st
  ⟨w32 (st.a + fin.a), w32 (st.b + fin.b), w32 (st.c + fin.c), w32 (st.d + fin.d),
   w32 (st.e + fin.e), w32 (st.f + fin.f), w32 (st.g + fin.g), w32 (st.h + fin.h)⟩

/-- Splits into 64-byte chunks; the fuel (one unit per chunk) makes the
recursion structural.  `chunks64` supplies enough fuel for the whole
input. -/
def chunks64Go : Nat → Bytes → List Bytes
  | 0, _ => []
  | _, [] => []
  | fuel + 1, x :: xs => (x :: xs).take 64 :: chunks64Go fuel ((x :: xs).drop 64)

/-- Splits the padded message into 64-byte chunks. -/
def chunks64 (l : Bytes) : List Bytes :=
  chunks64Go l.length l

/-- Go `sha256.Sum256`: the 32-byte SHA-256 digest of `msg`. -/
def sha256Bytes (msg : Bytes) : Bytes :=
  let st := (chunks64 (sha256Pad msg)).foldl sha256Compress sha256Init
  natToBytesBE 4 st.a ++ natToBytesBE 4 st.b ++ natToBytesBE 4 st.c
    ++ natToBytesBE 4 st.d ++ natToBytesBE 4 st.e ++ natToBytesBE 4 st.f
    ++ natToBytesBE 4 st.g ++ natToBytesBE 4 st.h

/-- Go `big.Int.SetBytes`: a byte slice read as a big-endian unsigned
integer. -/
def bytesToNat (bs : Bytes) : Nat :=
  bs.foldl (fun acc b => acc * 256 + b) 0

/-- Go `Node.GenerateRandomNumber` (`dkg/dkg.go` and both other node
variants): `big.NewInt(0).SetBytes(sha256.Sum256(tblsSig))`. -/
def GenerateRandomNumber (tblsSig : Bytes) : Nat :=
  bytesToNat (sha256Bytes tblsSig)

/-- Sanity anchor for the SHA-256 embedding: the digest of the empty
message is the published test vector. -/
theorem sha256Bytes_nil :
    sha256Bytes [] =
      [0xe3, 0xb0, 0xc4, 0x42, 0x98, 0xfc, 0x1c, 0x14,
       0x9a, 0xfb, 0xf4, 0xc8, 0x99, 0x6f, 0xb9, 0x24,
       0x27, 0xae, 0x41, 0xe4, 0x64, 0x9b, 0x93, 0x4c,
       0xa4, 0x95, 0x99, 0x1b, 0x78, 0x52, 0xb8, 0x55] := by
  decide

/-! ## JSON values (Go `encoding/json`, at value level)

The DTO structs carry `json:"..."` tags; `json.Marshal` emits an object
with those keys in struct order, `json.Unmarshal` looks fields up by key,
leaves a missing or `null` field at the zero value, and fails on a type
mismatch.  A `nil` Go slice marshals to `null` and an empty or `null`
array unmarshals to the empty slice; the embedding identifies the two by
always emitting an array. -/

inductive Json where
  | null
  | bool (b : Bool)
  | num (n : Int)
  | str (s : String)
  | arr (elems : List Json)
  | obj (fields : List (String × Json))

/-- Field lookup in a JSON object. -/
def jlookup (fields : List (String × Json)) (key : String) : Option Json :=
  (fields.find? (fun kv => kv.1 == key)).map (fun kv => kv.2)

/-- Go's `for … range` plus `append` plus early `return err` loop shape,
used by every marshal/unmarshal loop of the codec. -/
def mapE (f : α → Except String β) : List α → Except String (List β)
  | [] => .ok []
  | x :: xs => do
      let y ← f x
      let ys ← mapE f xs
      return y :: ys

/-- Decoding a JSON field into a Go `uint32`. -/
def jUInt32 : Option Json → Except String Nat
  | none => .ok 0
  | some .null => .ok 0
  | some (.num n) =>
      if 0 ≤ n ∧ n < 4294967296 then .ok n.toNat
      else .error "json: cannot unmarshal number into uint32"
  | some _ => .error "json: cannot unmarshal value into uint32"

/-- Decoding a JSON field into a Go `int32`. -/
def jInt32 : Option Json → Except String Int
  | none => .ok 0
  | some .null => .ok 0
  | some (.num n) =>
      if -2147483648 ≤ n ∧ n < 2147483648 then .ok n
      else .error "json: cannot unmarshal number into int32"
  | some _ => .error "json: cannot unmarshal value into int32"

/-- Decoding a JSON field into a Go `string`. -/
def jString : Option Json → Except String String
  | none => .ok ""
  | some .null => .ok ""
  | some (.str s) => .ok s
  | some _ => .error "json: cannot unmarshal value into string"

/-- Decoding a JSON field into a Go slice, one element at a time. -/
def jArr (f : Json → Except String α) : Option Json → Except String (List α)
  | none => .ok []
  | some .null => .ok []
  | some (.arr xs) => mapE f xs
  | some _ => .error "json: cannot unmarshal value into slice"

/-- Go `fmt.Errorf("…: %w", err)`. -/
def wrapErr (msg : String) : Except String α → Except String α
  | .ok a => .ok a
  | .error e => .error (msg ++ ": " ++ e)

/-! ## Bundle data model (`go.dedis.ch/kyber` pedersen bundles)

The bundle structs live in the external kyber library; the codec under
verification converts them to and from the DTOs of `dkg/dto.go`.  Points
and scalars are opaque group elements: the embedding abstracts them as
type parameters together with their (de)serialization functions. -/

structure Deal where
  ShareIndex : Nat
  EncryptedShare : Bytes
deriving DecidableEq

structure DealBundle (Point : Type) where
  DealerIndex : Nat
  Deals : List Deal
  Public : List Point
  SessionID : Bytes
  Signature : Bytes
deriving DecidableEq

structure Response where
  DealerIndex : Nat
  Status : Int
deriving DecidableEq

structure ResponseBundle where
  ShareIndex : Nat
  Responses : List Response
  SessionID : Bytes
  Signature : Bytes
deriving DecidableEq

structure Justification (Scalar : Type) where
  ShareIndex : Nat
  Share : Scalar
deriving DecidableEq

structure JustificationBundle (Scalar : Type) where
  DealerIndex : Nat
  Justifications : List (Justification Scalar)
  SessionID : Bytes
  Signature : Bytes
deriving DecidableEq

/-! ## DTO structs (`dkg/dto.go`, justification variant) -/

structure DealDTO where
  ShareIndex : Nat
  EncryptedShare : String
deriving DecidableEq

structure DealBundleDTO where
  DealerIndex : Nat
  Deals : List DealDTO
  Public : List String
  SessionID : String
  Signature : String
deriving DecidableEq

structure ResponseDTO where
  DealerIndex : Nat
  Status : Int
deriving DecidableEq

structure ResponseBundleDTO where
  ShareIndex : Nat
  Responses : List ResponseDTO
  SessionID : String
  Signature : String
deriving DecidableEq

structure JustificationDTO where
  ShareIndex : Nat
  Share : String
deriving DecidableEq

structure JustificationBundleDTO where
  DealerIndex : Nat
  Justifications : List JustificationDTO
  SessionID : String
  Signature : String
deriving DecidableEq

/-! ## The bundle codec (`dkg/dto.go` and the justification-codec variant)

`pmarshal`/`punmarshal` stand for `kyber.Point.MarshalBinary` /
`Suite.Point().UnmarshalBinary`, `smarshal`/`sunmarshal` for the scalar
pair; they are parameters of every codec function that touches a group
element. -/

section Codec

variable {Point Scalar : Type}
variable (pmarshal : Point → Except String Bytes)
variable (punmarshal : Bytes → Except String Point)
variable (smarshal : Scalar → Except String Bytes)
variable (sunmarshal : Bytes → Except String Scalar)

/-- Go `MarshalDealBundle`: hex-encodes the byte fields, serializes and
hex-encodes each public point (propagating a serialization error). -/
def MarshalDealBundle (bundle : DealBundle Point) :
    Except String DealBundleDTO := do
  let pubs ← mapE (fun p => do
      let pubBytes ← wrapErr "failed to marshal public point" (pmarshal p)
      return hexEncodeToString pubBytes) bundle.Public
  return {
    DealerIndex := bundle.DealerIndex
    Deals := bundle.Deals.map
      (fun d => ⟨d.ShareIndex, hexEncodeToString d.EncryptedShare⟩)
    Public := pubs
    SessionID := hexEncodeToString bundle.SessionID
    Signature := hexEncodeToString bundle.Signature }

/-- Go `UnmarshalDealBundle`: hex-decodes every byte field and deserializes
each public point, failing on the first malformed field. -/
def UnmarshalDealBundle (dto : DealBundleDTO) :
    Except String (DealBundle Point) := do
  let sessionID ← wrapErr "failed to decode session ID"
      (hexDecodeString dto.SessionID)
  let signature ← wrapErr "failed to decode signature"
      (hexDecodeString dto.Signature)
  let deals ← mapE (fun (d : DealDTO) => do
      let encryptedShare ← wrapErr "failed to decode encrypted share"
          (hexDecodeString d.EncryptedShare)
      return (⟨d.ShareIndex, encryptedShare⟩ : Deal)) dto.Deals
  let pubs ← mapE (fun (s : String) => do
      let pubBytes ← wrapErr "failed to decode public point"
          (hexDecodeString s)
      wrapErr "failed to unmarshal public point" (punmarshal pubBytes))
    dto.Public
  return ⟨dto.DealerIndex, deals, pubs, sessionID, signature⟩

/-- Go `MarshalResponseBundle`. -/
def MarshalResponseBundle (bundle : ResponseBundle) :
    Except String ResponseBundleDTO :=
  .ok {
    ShareIndex := bundle.ShareIndex
    Responses := bundle.Responses.map
      (fun r => ⟨r.DealerIndex, r.Status⟩)
    SessionID := hexEncodeToString bundle.SessionID
    Signature := hexEncodeToString bundle.Signature }

/-- Go `UnmarshalResponseBundle`. -/
def UnmarshalResponseBundle (dto : ResponseBundleDTO) :
    Except String ResponseBundle := do
  let sessionID ← wrapErr "failed to decode session ID"
      (hexDecodeString dto.SessionID)
  let signature ← wrapErr "failed to decode signature"
      (hexDecodeString dto.Signature)
  let responses := dto.Responses.map
      (fun (r : ResponseDTO) => (⟨r.DealerIndex, r.Status⟩ : Response))
  return ⟨dto.ShareIndex, responses, sessionID, signature⟩

/-- Go `MarshalJustificationBundle`: serializes and hex-encodes each revealed
share scalar. -/
def MarshalJustificationBundle (bundle : JustificationBundle Scalar) :
    Except String JustificationBundleDTO := do
  let justs ← mapE (fun (j : Justification Scalar) => do
      let shareBytes ← wrapErr "failed to marshal share" (smarshal j.Share)
      return (⟨j.ShareIndex, hexEncodeToString shareBytes⟩ : JustificationDTO))
    bundle.Justifications
  return {
    DealerIndex := bundle.DealerIndex
    Justifications := justs
    SessionID := hexEncodeToString bundle.SessionID
    Signature := hexEncodeToString bundle.Signature }

/-- Go `UnmarshalJustificationBundle`. -/
def UnmarshalJustificationBundle (dto : JustificationBundleDTO) :
    Except String (JustificationBundle Scalar) := do
  let sessionID ← wrapErr "failed to decode session ID"
      (hexDecodeString dto.SessionID)
  let signature ← wrapErr "failed to decode signature"
      (hexDecodeString dto.Signature)
  let justs ← mapE (fun (j : JustificationDTO) => do
      let shareBytes ← wrapErr "failed to decode share"
          (hexDecodeString j.Share)
      let scalar ← wrapErr "failed to unmarshal share" (sunmarshal shareBytes)
      return (⟨j.ShareIndex, scalar⟩ : Justification Scalar)) dto.Justifications
  return ⟨dto.DealerIndex, justs, sessionID, signature⟩

/-! JSON encodings of the DTOs (`json.Marshal` with the struct tags). -/

def DealDTO.toJson (d : DealDTO) : Json :=
  .obj [("shareIndex", .num (Int.ofNat d.ShareIndex)),
        ("encryptedShare", .str d.EncryptedShare)]

def DealBundleDTO.toJson (dto : DealBundleDTO) : Json :=
  .obj [("dealerIndex", .num (Int.ofNat dto.DealerIndex)),
        ("deals", .arr (dto.Deals.map DealDTO.toJson)),
        ("public", .arr (dto.Public.map Json.str)),
        ("sessionId", .str dto.SessionID),
        ("signature", .str dto.Signature)]

def ResponseDTO.toJson (r : ResponseDTO) : Json :=
  .obj [("dealerIndex", .num (Int.ofNat r.DealerIndex)),
        ("status", .num r.Status)]

def ResponseBundleDTO.toJson (dto : ResponseBundleDTO) : Json :=
  .obj [("shareIndex", .num (Int.ofNat dto.ShareIndex)),
        ("responses", .arr (dto.Responses.map ResponseDTO.toJson)),
        ("sessionId", .str dto.SessionID),
        ("signature", .str dto.Signature)]

def JustificationDTO.toJson (j : JustificationDTO) : Json :=
  .obj [("shareIndex", .num (Int.ofNat j.ShareIndex)),
        ("share", .str j.Share)]

def JustificationBundleDTO.toJson (dto : JustificationBundleDTO) : Json :=
  .obj [("dealerIndex", .num (Int.ofNat dto.DealerIndex)),
        ("justifications", .arr (dto.Justifications.map JustificationDTO.toJson)),
        ("sessionId", .str dto.SessionID),
        ("signature", .str dto.Signature)]

/-! JSON decodings of the DTOs (`json.Unmarshal` with the struct tags). -/

def DealDTO.fromJson : Json → Except String DealDTO
  | .obj fs => do
      let si ← jUInt32 (jlookup fs "shareIndex")
      let es ← jString (jlookup fs "encryptedShare")
      return ⟨si, es⟩
  | .null => .ok ⟨0, ""⟩
  | _ => .error "json: cannot unmarshal value into DealDTO"

def DealBundleDTO.fromJson : Json → Except String DealBundleDTO
  | .obj fs => do
      let di ← jUInt32 (jlookup fs "dealerIndex")
      let deals ← jArr DealDTO.fromJson (jlookup fs "deals")
      let pubs ← jArr (fun j => jString (some j)) (jlookup fs "public")
      let sid ← jString (jlookup fs "sessionId")
      let sig ← jString (jlookup fs "signature")
      return ⟨di, deals, pubs, sid, sig⟩
  | _ => .error "json: cannot unmarshal value into DealBundleDTO"

def ResponseDTO.fromJson : Json → Except String ResponseDTO
  | .obj fs => do
      let di ← jUInt32 (jlookup fs "dealerIndex")
      let st ← jInt32 (jlookup fs "status")
      return ⟨di, st⟩
  | .null => .ok ⟨0, 0⟩
  | _ => .error "json: cannot unmarshal value into ResponseDTO"

def ResponseBundleDTO.fromJson : Json → Except String ResponseBundleDTO
  | .obj fs => do
      let si ← jUInt32 (jlookup fs "shareIndex")
      let resps ← jArr ResponseDTO.fromJson (jlookup fs "responses")
      let sid ← jString (jlookup fs "sessionId")
      let sig ← jString (jlookup fs "signature")
      return ⟨si, resps, sid, sig⟩
  | _ => .error "json: cannot unmarshal value into ResponseBundleDTO"

def JustificationDTO.fromJson : Json → Except String JustificationDTO
  | .obj fs => do
      let si ← jUInt32 (jlookup fs "shareIndex")
      let sh ← jString (jlookup fs "share")
      return ⟨si, sh⟩
  | .null => .ok ⟨0, ""⟩
  | _ => .error "json: cannot unmarshal value into JustificationDTO"

def JustificationBundleDTO.fromJson : Json → Except String JustificationBundleDTO
  | .obj fs => do
      let di ← jUInt32 (jlookup fs "dealerIndex")
      let justs ← jArr JustificationDTO.fromJson (jlookup fs "justifications")
      let sid ← jString (jlookup fs "sessionId")
      let sig ← jString (jlookup fs "signature")
      return ⟨di, justs, sid, sig⟩
  | _ => .error "json: cannot unmarshal value into JustificationBundleDTO"

/-! The `…ToJSON` / `…FromJSON` wrappers. -/

/-- Go `DealBundleToJSON`: marshal to the DTO then `json.Marshal`. -/
def DealBundleToJSON (bundle : DealBundle Point) : Except String Json := do
  let dto ← MarshalDealBundle pmarshal bundle
  return dto.toJson

/-- Go `DealBundleFromJSON`: `json.Unmarshal` then unmarshal the DTO. -/
def DealBundleFromJSON (j : Json) : Except String (DealBundle Point) := do
  let dto ← DealBundleDTO.fromJson j
  UnmarshalDealBundle punmarshal dto

/-- Go `ResponseBundleToJSON`. -/
def ResponseBundleToJSON (bundle : ResponseBundle) : Except String Json := do
  let dto ← MarshalResponseBundle bundle
  return dto.toJson

/-- Go `ResponseBundleFromJSON`. -/
def ResponseBundleFromJSON (j : Json) : Except String ResponseBundle := do
  let dto ← ResponseBundleDTO.fromJson j
  UnmarshalResponseBundle dto

/-- Go `JustificationBundleToJSON`. -/
def JustificationBundleToJSON (bundle : JustificationBundle Scalar) :
    Except String Json := do
  let dto ← MarshalJustificationBundle smarshal bundle
  return dto.toJson

/-- Go `JustificationBundleFromJSON`. -/
def JustificationBundleFromJSON (j : Json) :
    Except String (JustificationBundle Scalar) := do
  let dto ← JustificationBundleDTO.fromJson j
  UnmarshalJustificationBundle sunmarshal dto

end Codec

/-! ## Codec round-trip lemmas -/

/-- The external collaborator's codec contract for one opaque field type:
deserialization inverts serialization, and serialized bytes are bytes. -/
def CodecOK {α : Type} (enc : α → Except String Bytes)
    (dec : Bytes → Except String α) : Prop :=
  ∀ x bs, enc x = .ok bs → dec bs = .ok x ∧ bytesWF bs = true

theorem wrapErr_ok {msg : String} {e : Except String α} {a : α}
    (h : e = .ok a) : wrapErr msg e = .ok a := by
  subst h; rfl

theorem mapE_nil {f : α → Except String β} : mapE f [] = .ok [] := rfl

theorem mapE_cons {f : α → Except String β} {x : α} {xs : List α} :
    mapE f (x :: xs) =
      (f x).bind (fun y => (mapE f xs).bind (fun ys => .ok (y :: ys))) := rfl

/-- If `g` inverts `f` elementwise on `xs`, then `mapE g` inverts a
successful `mapE f` on `xs`. -/
theorem mapE_inverse {f : α → Except String β} {g : β → Except String α} :
    ∀ {xs : List α} {ys : List β}, mapE f xs = .ok ys →
      (∀ a ∈ xs, ∀ b, f a = .ok b → g b = .ok a) →
      mapE g ys = .ok xs := by
  intro xs
  induction xs with
  | nil =>
    intro ys hm _
    simp only [mapE_nil] at hm
    cases hm
    rfl
  | cons x xs ih =>
    intro ys hm hinv
    rw [mapE_cons] at hm
    cases hfx : f x with
    | error e => rw [hfx] at hm; cases hm
    | ok y =>
      rw [hfx] at hm
      cases hrest : mapE f xs with
      | error e => rw [hrest] at hm; cases hm
      | ok ys' =>
        rw [hrest] at hm
        simp only [Except.bind] at hm
        cases hm
        rw [mapE_cons, hinv x (List.mem_cons_self x xs) y hfx,
          ih hrest (fun a ha => hinv a (List.mem_cons_of_mem x ha))]
        rfl

/-- If `g` recovers each `a` from `f a`, `mapE g` inverts `List.map f`. -/
theorem mapE_map {f : α → β} {g : β → Except String α} :
    ∀ {xs : List α}, (∀ a ∈ xs, g (f a) = .ok a) →
      mapE g (xs.map f) = .ok xs := by
  intro xs
  induction xs with
  | nil => intro _; rfl
  | cons x xs ih =>
    intro h
    rw [List.map_cons, mapE_cons, h x (List.mem_cons_self x xs),
      ih (fun a ha => h a (List.mem_cons_of_mem x ha))]
    rfl

/-! Well-formedness of bundles: indices fit the Go integer types and byte
fields are genuine bytes.  Every bundle a Go program can hold satisfies
these bounds by typing. -/

def Deal.WF (d : Deal) : Bool :=
  decide (d.ShareIndex < 4294967296) && bytesWF d.EncryptedShare

def DealBundle.WF {Point : Type} (b : DealBundle Point) : Bool :=
  decide (b.DealerIndex < 4294967296) && b.Deals.all Deal.WF
    && bytesWF b.SessionID && bytesWF b.Signature

def Response.WF (r : Response) : Bool :=
  decide (r.DealerIndex < 4294967296)
    && decide (-2147483648 ≤ r.Status) && decide (r.Status < 2147483648)

def ResponseBundle.WF (b : ResponseBundle) : Bool :=
  decide (b.ShareIndex < 4294967296) && b.Responses.all Response.WF
    && bytesWF b.SessionID && bytesWF b.Signature

def JustificationBundle.WF {Scalar : Type} (b : JustificationBundle Scalar) : Bool :=
  decide (b.DealerIndex < 4294967296)
    && b.Justifications.all (fun j => decide (j.ShareIndex < 4294967296))
    && bytesWF b.SessionID && bytesWF b.Signature

theorem jUInt32_ofNat {n : Nat} (h : n < 4294967296) :
    jUInt32 (some (.num (Int.ofNat n))) = .ok n := by
  simp [jUInt32, Int.toNat_ofNat]
  omega

theorem jInt32_int {n : Int} (h1 : -2147483648 ≤ n) (h2 : n < 2147483648) :
    jInt32 (some (.num n)) = .ok n := by
  simp [jInt32]
  omega

theorem wrapErr_eq_ok {msg : String} {e : Except String α} {a : α} :
    wrapErr msg e = .ok a ↔ e = .ok a := by
  cases e <;> simp [wrapErr]

theorem bind_ok_iff {e : Except String α} {f : α → Except String β} {v : β} :
    (e >>= f) = .ok v ↔ ∃ a, e = .ok a ∧ f a = .ok v := by
  cases e <;> simp [Bind.bind, Except.bind]

theorem except_bind_ok_iff {e : Except String α} {f : α → Except String β}
    {v : β} : e.bind f = .ok v ↔ ∃ a, e = .ok a ∧ f a = .ok v := by
  cases e <;> simp [Except.bind]

theorem pure_ok_iff {a v : α} :
    (pure a : Except String α) = .ok v ↔ a = v := by
  constructor
  · intro h
    cases h
    rfl
  · intro h
    cases h
    rfl

/-- Unmarshalling inverts marshalling for deal bundles (DTO level). -/
theorem UnmarshalDealBundle_MarshalDealBundle
    {Point : Type} {pmarshal : Point → Except String Bytes}
    {punmarshal : Bytes → Except String Point}
    (hpc : CodecOK pmarshal punmarshal)
    {b : DealBundle Point} (hwf : b.WF = true)
    {dto : DealBundleDTO} (hm : MarshalDealBundle pmarshal b = .ok dto) :
    UnmarshalDealBundle punmarshal dto = .ok b := by
  simp only [DealBundle.WF, Bool.and_eq_true, decide_eq_true_eq,
    List.all_eq_true] at hwf
  obtain ⟨⟨⟨hdi, hdeals⟩, hsid⟩, hsig⟩ := hwf
  unfold MarshalDealBundle at hm
  rw [bind_ok_iff] at hm
  obtain ⟨pubs, hpubs, hmk⟩ := hm
  rw [pure_ok_iff] at hmk
  subst hmk
  unfold UnmarshalDealBundle
  rw [bind_ok_iff]
  refine ⟨b.SessionID, wrapErr_ok (hexDecodeString_hexEncodeToString hsid), ?_⟩
  rw [bind_ok_iff]
  refine ⟨b.Signature, wrapErr_ok (hexDecodeString_hexEncodeToString hsig), ?_⟩
  rw [bind_ok_iff]
  refine ⟨b.Deals, ?_, ?_⟩
  · refine mapE_map (fun d hd => ?_)
    have hdwf := hdeals d hd
    simp only [Deal.WF, Bool.and_eq_true, decide_eq_true_eq] at hdwf
    rw [bind_ok_iff]
    exact ⟨d.EncryptedShare,
      wrapErr_ok (hexDecodeString_hexEncodeToString hdwf.2), pure_ok_iff.mpr rfl⟩
  · rw [bind_ok_iff]
    refine ⟨b.Public, ?_, pure_ok_iff.mpr rfl⟩
    refine mapE_inverse hpubs (fun p hp s hfs => ?_)
    rw [bind_ok_iff] at hfs
    obtain ⟨pb, hpb, hs⟩ := hfs
    rw [pure_ok_iff] at hs
    subst hs
    rw [wrapErr_eq_ok] at hpb
    obtain ⟨hinv, hbts⟩ := hpc p pb hpb
    rw [bind_ok_iff]
    exact ⟨pb, wrapErr_ok (hexDecodeString_hexEncodeToString hbts),
      wrapErr_ok hinv⟩

/-- Unmarshalling inverts marshalling for response bundles (DTO level). -/
theorem UnmarshalResponseBundle_MarshalResponseBundle
    {b : ResponseBundle} (hwf : b.WF = true)
    {dto : ResponseBundleDTO} (hm : MarshalResponseBundle b = .ok dto) :
    UnmarshalResponseBundle dto = .ok b := by
  simp only [ResponseBundle.WF, Bool.and_eq_true, decide_eq_true_eq,
    List.all_eq_true] at hwf
  obtain ⟨⟨⟨hsi, hresps⟩, hsid⟩, hsig⟩ := hwf
  unfold MarshalResponseBundle at hm
  cases hm
  unfold UnmarshalResponseBundle
  rw [bind_ok_iff]
  refine ⟨b.SessionID, wrapErr_ok (hexDecodeString_hexEncodeToString hsid), ?_⟩
  rw [bind_ok_iff]
  refine ⟨b.Signature, wrapErr_ok (hexDecodeString_hexEncodeToString hsig), ?_⟩
  rw [pure_ok_iff]
  have hrs : ∀ rs : List Response,
      List.map (fun (r : ResponseDTO) =>
          ({ DealerIndex := r.DealerIndex, Status := r.Status } : Response))
        (List.map (fun (r : Response) =>
          ({ DealerIndex := r.DealerIndex, Status := r.Status } : ResponseDTO)) rs)
        = rs := by
    intro rs
    induction rs with
    | nil => rfl
    | cons r rs ih => simp [ih]
  simp [hrs]

/-- Unmarshalling inverts marshalling for justification bundles (DTO
level). -/
theorem UnmarshalJustificationBundle_MarshalJustificationBundle
    {Scalar : Type} {smarshal : Scalar → Except String Bytes}
    {sunmarshal : Bytes → Except String Scalar}
    (hsc : CodecOK smarshal sunmarshal)
    {b : JustificationBundle Scalar} (hwf : b.WF = true)
    {dto : JustificationBundleDTO}
    (hm : MarshalJustificationBundle smarshal b = .ok dto) :
    UnmarshalJustificationBundle sunmarshal dto = .ok b := by
  simp only [JustificationBundle.WF, Bool.and_eq_true, decide_eq_true_eq,
    List.all_eq_true] at hwf
  obtain ⟨⟨⟨hdi, hjusts⟩, hsid⟩, hsig⟩ := hwf
  unfold MarshalJustificationBundle at hm
  rw [bind_ok_iff] at hm
  obtain ⟨justs, hjs, hmk⟩ := hm
  rw [pure_ok_iff] at hmk
  subst hmk
  unfold UnmarshalJustificationBundle
  rw [bind_ok_iff]
  refine ⟨b.SessionID, wrapErr_ok (hexDecodeString_hexEncodeToString hsid), ?_⟩
  rw [bind_ok_iff]
  refine ⟨b.Signature, wrapErr_ok (hexDecodeString_hexEncodeToString hsig), ?_⟩
  rw [bind_ok_iff]
  refine ⟨b.Justifications, ?_, pure_ok_iff.mpr rfl⟩
  refine mapE_inverse hjs (fun j hj jdto hfj => ?_)
  rw [bind_ok_iff] at hfj
  obtain ⟨sb, hsb, hj2⟩ := hfj
  rw [pure_ok_iff] at hj2
  subst hj2
  rw [wrapErr_eq_ok] at hsb
  obtain ⟨hinv, hbts⟩ := hsc j.Share sb hsb
  rw [bind_ok_iff]
  refine ⟨sb, wrapErr_ok (hexDecodeString_hexEncodeToString hbts), ?_⟩
  rw [bind_ok_iff]
  exact ⟨j.Share, wrapErr_ok hinv, pure_ok_iff.mpr rfl⟩

theorem jlookup_cons_eq {k : String} {v : Json} {rest : List (String × Json)} :
    jlookup ((k, v) :: rest) k = some v := by
  simp [jlookup, List.find?]

theorem dealDTO_json_roundtrip {d : DealDTO} (h : d.ShareIndex < 4294967296) :
    DealDTO.fromJson d.toJson = .ok d := by
  simp only [DealDTO.toJson, DealDTO.fromJson, jlookup, List.find?]
  rw [bind_ok_iff]
  refine ⟨d.ShareIndex, jUInt32_ofNat h, ?_⟩
  rw [bind_ok_iff]
  exact ⟨d.EncryptedShare, rfl, pure_ok_iff.mpr rfl⟩

theorem responseDTO_json_roundtrip {r : ResponseDTO}
    (h1 : r.DealerIndex < 4294967296)
    (h2 : -2147483648 ≤ r.Status) (h3 : r.Status < 2147483648) :
    ResponseDTO.fromJson r.toJson = .ok r := by
  simp only [ResponseDTO.toJson, ResponseDTO.fromJson, jlookup, List.find?]
  rw [bind_ok_iff]
  refine ⟨r.DealerIndex, jUInt32_ofNat h1, ?_⟩
  rw [bind_ok_iff]
  exact ⟨r.Status, jInt32_int h2 h3, pure_ok_iff.mpr rfl⟩

theorem justificationDTO_json_roundtrip {j : JustificationDTO}
    (h : j.ShareIndex < 4294967296) :
    JustificationDTO.fromJson j.toJson = .ok j := by
  simp only [JustificationDTO.toJson, JustificationDTO.fromJson, jlookup,
    List.find?]
  rw [bind_ok_iff]
  refine ⟨j.ShareIndex, jUInt32_ofNat h, ?_⟩
  rw [bind_ok_iff]
  exact ⟨j.Share, rfl, pure_ok_iff.mpr rfl⟩

/-! DTO well-formedness (integer fields fit their Go types) and JSON-level
round trips for the three bundle DTOs. -/

def DealBundleDTO.WF (dto : DealBundleDTO) : Bool :=
  decide (dto.DealerIndex < 4294967296)
    && dto.Deals.all (fun d => decide (d.ShareIndex < 4294967296))

def ResponseBundleDTO.WF (dto : ResponseBundleDTO) : Bool :=
  decide (dto.ShareIndex < 4294967296)
    && dto.Responses.all (fun r => decide (r.DealerIndex < 4294967296)
        && decide (-2147483648 ≤ r.Status) && decide (r.Status < 2147483648))

def JustificationBundleDTO.WF (dto : JustificationBundleDTO) : Bool :=
  decide (dto.DealerIndex < 4294967296)
    && dto.Justifications.all (fun j => decide (j.ShareIndex < 4294967296))

theorem dealBundleDTO_json_roundtrip {dto : DealBundleDTO}
    (hwf : dto.WF = true) :
    DealBundleDTO.fromJson dto.toJson = .ok dto := by
  simp only [DealBundleDTO.WF, Bool.and_eq_true, decide_eq_true_eq,
    List.all_eq_true] at hwf
  obtain ⟨hdi, hdeals⟩ := hwf
  simp only [DealBundleDTO.toJson, DealBundleDTO.fromJson, jlookup,
    List.find?]
  rw [bind_ok_iff]
  refine ⟨dto.DealerIndex, jUInt32_ofNat hdi, ?_⟩
  rw [bind_ok_iff]
  refine ⟨dto.Deals, ?_, ?_⟩
  · simp only [jArr]
    exact mapE_map (fun d hd =>
      dealDTO_json_roundtrip (by simpa using hdeals d hd))
  rw [bind_ok_iff]
  refine ⟨dto.Public, ?_, ?_⟩
  · simp only [jArr]
    exact mapE_map (fun s _ => rfl)
  rw [bind_ok_iff]
  refine ⟨dto.SessionID, rfl, ?_⟩
  rw [bind_ok_iff]
  exact ⟨dto.Signature, rfl, pure_ok_iff.mpr rfl⟩

theorem responseBundleDTO_json_roundtrip {dto : ResponseBundleDTO}
    (hwf : dto.WF = true) :
    ResponseBundleDTO.fromJson dto.toJson = .ok dto := by
  simp only [ResponseBundleDTO.WF, Bool.and_eq_true, decide_eq_true_eq,
    List.all_eq_true] at hwf
  obtain ⟨hsi, hresps⟩ := hwf
  simp only [ResponseBundleDTO.toJson, ResponseBundleDTO.fromJson, jlookup,
    List.find?]
  rw [bind_ok_iff]
  refine ⟨dto.ShareIndex, jUInt32_ofNat hsi, ?_⟩
  rw [bind_ok_iff]
  refine ⟨dto.Responses, ?_, ?_⟩
  · simp only [jArr]
    refine mapE_map (fun r hr => ?_)
    have := hresps r hr
    simp only [Bool.and_eq_true, decide_eq_true_eq] at this
    exact responseDTO_json_roundtrip this.1.1 this.1.2 this.2
  rw [bind_ok_iff]
  refine ⟨dto.SessionID, rfl, ?_⟩
  rw [bind_ok_iff]
  exact ⟨dto.Signature, rfl, pure_ok_iff.mpr rfl⟩

theorem justificationBundleDTO_json_roundtrip {dto : JustificationBundleDTO}
    (hwf : dto.WF = true) :
    JustificationBundleDTO.fromJson dto.toJson = .ok dto := by
  simp only [JustificationBundleDTO.WF, Bool.and_eq_true, decide_eq_true_eq,
    List.all_eq_true] at hwf
  obtain ⟨hdi, hjusts⟩ := hwf
  simp only [JustificationBundleDTO.toJson, JustificationBundleDTO.fromJson,
    jlookup, List.find?]
  rw [bind_ok_iff]
  refine ⟨dto.DealerIndex, jUInt32_ofNat hdi, ?_⟩
  rw [bind_ok_iff]
  refine ⟨dto.Justifications, ?_, ?_⟩
  · simp only [jArr]
    exact mapE_map (fun j hj =>
      justificationDTO_json_roundtrip (by simpa using hjusts j hj))
  rw [bind_ok_iff]
  refine ⟨dto.SessionID, rfl, ?_⟩
  rw [bind_ok_iff]
  exact ⟨dto.Signature, rfl, pure_ok_iff.mpr rfl⟩

/-- Every output element of a successful `mapE` comes from an input
element. -/
theorem mapE_mem {f : α → Except String β} :
    ∀ {xs : List α} {ys : List β}, mapE f xs = .ok ys →
      ∀ b ∈ ys, ∃ a ∈ xs, f a = .ok b := by
  intro xs
  induction xs with
  | nil =>
    intro ys hm b hb
    simp only [mapE_nil] at hm
    cases hm
    cases hb
  | cons x xs ih =>
    intro ys hm b hb
    rw [mapE_cons, except_bind_ok_iff] at hm
    obtain ⟨y, hy, hrest⟩ := hm
    rw [except_bind_ok_iff] at hrest
    obtain ⟨ys', hys', hcons⟩ := hrest
    cases hcons
    rcases List.mem_cons.mp hb with hbeq | hbmem
    · exact ⟨x, List.mem_cons_self x xs, hbeq ▸ hy⟩
    · obtain ⟨a, ha, hfa⟩ := ih hys' b hbmem
      exact ⟨a, List.mem_cons_of_mem x ha, hfa⟩

/-! Marshalling a well-formed bundle yields a well-formed DTO. -/

theorem MarshalDealBundle_WF {Point : Type}
    {pmarshal : Point → Except String Bytes}
    {b : DealBundle Point} (hwf : b.WF = true)
    {dto : DealBundleDTO} (hm : MarshalDealBundle pmarshal b = .ok dto) :
    dto.WF = true := by
  simp only [DealBundle.WF, Bool.and_eq_true, decide_eq_true_eq,
    List.all_eq_true] at hwf
  obtain ⟨⟨⟨hdi, hdeals⟩, _⟩, _⟩ := hwf
  unfold MarshalDealBundle at hm
  rw [bind_ok_iff] at hm
  obtain ⟨pubs, _, hmk⟩ := hm
  rw [pure_ok_iff] at hmk
  subst hmk
  simp only [DealBundleDTO.WF, Bool.and_eq_true, decide_eq_true_eq,
    List.all_eq_true, List.mem_map]
  refine ⟨hdi, ?_⟩
  rintro d ⟨d', hd', rfl⟩
  have := hdeals d' hd'
  simp only [Deal.WF, Bool.and_eq_true, decide_eq_true_eq] at this
  simpa using this.1

theorem MarshalResponseBundle_WF
    {b : ResponseBundle} (hwf : b.WF = true)
    {dto : ResponseBundleDTO} (hm : MarshalResponseBundle b = .ok dto) :
    dto.WF = true := by
  simp only [ResponseBundle.WF, Bool.and_eq_true, decide_eq_true_eq,
    List.all_eq_true] at hwf
  obtain ⟨⟨⟨hsi, hresps⟩, _⟩, _⟩ := hwf
  unfold MarshalResponseBundle at hm
  cases hm
  simp only [ResponseBundleDTO.WF, Bool.and_eq_true, decide_eq_true_eq,
    List.all_eq_true, List.mem_map]
  refine ⟨hsi, ?_⟩
  rintro r ⟨r', hr', rfl⟩
  have := hresps r' hr'
  simp only [Response.WF, Bool.and_eq_true, decide_eq_true_eq] at this
  simp only [Bool.and_eq_true, decide_eq_true_eq]
  exact ⟨⟨this.1.1, this.1.2⟩, this.2⟩

theorem MarshalJustificationBundle_WF {Scalar : Type}
    {smarshal : Scalar → Except String Bytes}
    {b : JustificationBundle Scalar} (hwf : b.WF = true)
    {dto : JustificationBundleDTO}
    (hm : MarshalJustificationBundle smarshal b = .ok dto) :
    dto.WF = true := by
  simp only [JustificationBundle.WF, Bool.and_eq_true, decide_eq_true_eq,
    List.all_eq_true] at hwf
  obtain ⟨⟨⟨hdi, hjusts⟩, _⟩, _⟩ := hwf
  unfold MarshalJustificationBundle at hm
  rw [bind_ok_iff] at hm
  obtain ⟨justs, hjs, hmk⟩ := hm
  rw [pure_ok_iff] at hmk
  subst hmk
  simp only [JustificationBundleDTO.WF, Bool.and_eq_true, decide_eq_true_eq,
    List.all_eq_true]
  refine ⟨hdi, fun jdto hjdto => ?_⟩
  obtain ⟨j, hj, hfj⟩ := mapE_mem hjs jdto hjdto
  rw [bind_ok_iff] at hfj
  obtain ⟨sb, _, hmk2⟩ := hfj
  rw [pure_ok_iff] at hmk2
  subst hmk2
  simpa using hjusts j hj

/-! ## Claim C1: codec round trip -/

/-- Claim C1: For every `DealBundle`, `ResponseBundle`, and
`JustificationBundle` (well-formed, i.e. holding genuine Go `uint32`/
`int32`/byte values) whose opaque group elements satisfy the primitives'
codec contract, marshalling through the Bundle Codec
(`MarshalDealBundle`/`MarshalResponseBundle`/`MarshalJustificationBundle`
and their JSON wrappers `…ToJSON`/`…FromJSON`) and then unmarshalling the
result yields a bundle equal in every field to the original. -/
theorem C1_bundle_codec_roundtrip
    {Point Scalar : Type}
    (pmarshal : Point → Except String Bytes)
    (punmarshal : Bytes → Except String Point)
    (smarshal : Scalar → Except String Bytes)
    (sunmarshal : Bytes → Except String Scalar)
    (hpc : CodecOK pmarshal punmarshal) (hsc : CodecOK smarshal sunmarshal)
    (db : DealBundle Point) (rb : ResponseBundle)
    (jb : JustificationBundle Scalar)
    (hdb : db.WF = true) (hrb : rb.WF = true) (hjb : jb.WF = true) :
    (∀ dto, MarshalDealBundle pmarshal db = .ok dto →
        UnmarshalDealBundle punmarshal dto = .ok db)
    ∧ (∀ j, DealBundleToJSON pmarshal db = .ok j →
        DealBundleFromJSON punmarshal j = .ok db)
    ∧ (∀ dto, MarshalResponseBundle rb = .ok dto →
        UnmarshalResponseBundle dto = .ok rb)
    ∧ (∀ j, ResponseBundleToJSON rb = .ok j →
        ResponseBundleFromJSON j = .ok rb)
    ∧ (∀ dto, MarshalJustificationBundle smarshal jb = .ok dto →
        UnmarshalJustificationBundle sunmarshal dto = .ok jb)
    ∧ (∀ j, JustificationBundleToJSON smarshal jb = .ok j →
        JustificationBundleFromJSON sunmarshal j = .ok jb) := by
  refine ⟨fun dto hm => UnmarshalDealBundle_MarshalDealBundle hpc hdb hm,
    ?_,
    fun dto hm => UnmarshalResponseBundle_MarshalResponseBundle hrb hm,
    ?_,
    fun dto hm =>
      UnmarshalJustificationBundle_MarshalJustificationBundle hsc hjb hm,
    ?_⟩
  · intro j hj
    unfold DealBundleToJSON at hj
    rw [bind_ok_iff] at hj
    obtain ⟨dto, hm, hpj⟩ := hj
    rw [pure_ok_iff] at hpj
    subst hpj
    unfold DealBundleFromJSON
    rw [bind_ok_iff]
    exact ⟨dto, dealBundleDTO_json_roundtrip (MarshalDealBundle_WF hdb hm),
      UnmarshalDealBundle_MarshalDealBundle hpc hdb hm⟩
  · intro j hj
    unfold ResponseBundleToJSON at hj
    rw [bind_ok_iff] at hj
    obtain ⟨dto, hm, hpj⟩ := hj
    rw [pure_ok_iff] at hpj
    subst hpj
    unfold ResponseBundleFromJSON
    rw [bind_ok_iff]
    exact ⟨dto, responseBundleDTO_json_roundtrip (MarshalResponseBundle_WF hrb hm),
      UnmarshalResponseBundle_MarshalResponseBundle hrb hm⟩
  · intro j hj
    unfold JustificationBundleToJSON at hj
    rw [bind_ok_iff] at hj
    obtain ⟨dto, hm, hpj⟩ := hj
    rw [pure_ok_iff] at hpj
    subst hpj
    unfold JustificationBundleFromJSON
    rw [bind_ok_iff]
    exact ⟨dto,
      justificationBundleDTO_json_roundtrip
        (MarshalJustificationBundle_WF hjb hm),
      UnmarshalJustificationBundle_MarshalJustificationBundle hsc hjb hm⟩

/-- Witness for C1: the round trip evaluated at concrete bundles over the
trivial one-element group codec. -/
theorem C1_bundle_codec_roundtrip_witness :
    CodecOK (fun (_ : Unit) => (.ok [] : Except String Bytes))
      (fun _ => .ok ())
    ∧ (⟨1, [⟨2, [171]⟩], [()], [1], [255]⟩ : DealBundle Unit).WF = true
    ∧ (⟨1, [⟨0, 0⟩, ⟨1, -1⟩], [2], [3]⟩ : ResponseBundle).WF = true
    ∧ (⟨2, [⟨1, ()⟩], [4], [5]⟩ : JustificationBundle Unit).WF = true
    ∧ UnmarshalDealBundle (fun _ => .ok ()) ⟨1, [⟨2, "ab"⟩], [""], "01", "ff"⟩
        = .ok (⟨1, [⟨2, [171]⟩], [()], [1], [255]⟩ : DealBundle Unit)
    ∧ UnmarshalResponseBundle ⟨1, [⟨0, 0⟩, ⟨1, -1⟩], "02", "03"⟩
        = .ok (⟨1, [⟨0, 0⟩, ⟨1, -1⟩], [2], [3]⟩ : ResponseBundle)
    ∧ UnmarshalJustificationBundle (fun _ => .ok ()) ⟨2, [⟨1, ""⟩], "04", "05"⟩
        = .ok (⟨2, [⟨1, ()⟩], [4], [5]⟩ : JustificationBundle Unit)
    ∧ DealBundleFromJSON (fun _ => .ok ())
        (.obj [("dealerIndex", .num 1),
               ("deals", .arr [.obj [("shareIndex", .num 2),
                                     ("encryptedShare", .str "ab")]]),
               ("public", .arr [.str ""]),
               ("sessionId", .str "01"), ("signature", .str "ff")])
        = .ok (⟨1, [⟨2, [171]⟩], [()], [1], [255]⟩ : DealBundle Unit) := by
  have hcodec : CodecOK (fun (_ : Unit) => (.ok [] : Except String Bytes))
      (fun _ => .ok ()) := by
    intro x bs h
    cases h
    exact ⟨rfl, rfl⟩
  have hmain := C1_bundle_codec_roundtrip
    (fun (_ : Unit) => (.ok [] : Except String Bytes)) (fun _ => .ok ())
    (fun (_ : Unit) => (.ok [] : Except String Bytes)) (fun _ => .ok ())
    hcodec hcodec
    ⟨1, [⟨2, [171]⟩], [()], [1], [255]⟩ ⟨1, [⟨0, 0⟩, ⟨1, -1⟩], [2], [3]⟩
    ⟨2, [⟨1, ()⟩], [4], [5]⟩ (by decide) (by decide) (by decide)
  exact ⟨hcodec, by decide, by decide, by decide,
    hmain.1 ⟨1, [⟨2, "ab"⟩], [""], "01", "ff"⟩ rfl,
    hmain.2.2.1 ⟨1, [⟨0, 0⟩, ⟨1, -1⟩], "02", "03"⟩ rfl,
    hmain.2.2.2.2.1 ⟨2, [⟨1, ""⟩], "04", "05"⟩ rfl,
    hmain.2.1 _ rfl⟩

/-! ## The VRF round state (`Node` of the libp2p variant, and the
signature-collection functions shared with the HTTP variant)

`Threshold` and the 3-element participant list come from the package
configuration source.  The kyber threshold-BLS scheme is the external
collaborator: `tblsSign` stands for `ThresholdBLS.Sign`, `tblsRecover`
for `ThresholdBLS.Recover` (taking the commitments that the source turns
into a `PubPoly`).  Channels: `requests` is the Go map
`map[string][][]byte`; `requestWait` maps a request id to `some k` when
its buffered wait channel exists and `k` notifications have been sent on
it, `none` when the channel was never created (a send on such a Go nil
channel blocks forever and has no completed-state counterpart; the model
leaves the map unchanged there).  The HTTP-variant `Node` carries the
same `index`/`Result`/`requests` fields and no wait channels; the shared
state type carries `requestWait` unused by its functions. -/

/-- Go `Threshold = 2` (`dkg` package constant). -/
def Threshold : Nat := 2

namespace rng

/-- Go `rng.SignVRF`. -/
structure SignVRF where
  RequestID : String
  Sender : String
  Data : String
deriving DecidableEq

/-- Go `rng.Signature`. -/
structure Signature where
  RequestID : String
  Signature : String
deriving DecidableEq

end rng

/-- kyber `share.PriShare` as returned by `Result.Key.PriShare()`. -/
structure PriShare (Scalar : Type) where
  I : Nat
  V : Scalar
deriving DecidableEq

/-- The part of the kyber pedersen `Result` the node reads: the public
commitments (`Result.Key.Commits`) and the private share
(`Result.Key.PriShare()`). -/
structure DKGResult (Point Scalar : Type) where
  Commits : List Point
  Share : PriShare Scalar
deriving DecidableEq

/-- The mutable node state shared by the VRF-collection functions. -/
structure NodeState (Point Scalar : Type) where
  index : Nat
  Result : Option (DKGResult Point Scalar)
  requests : String → List Bytes
  requestWait : String → Option Nat

section NodeOps

variable {Point Scalar : Type}
variable (tblsSign : PriShare Scalar → Bytes → Except String Bytes)
variable (tblsRecover :
  List Point → Bytes → List Bytes → Nat → Nat → Except String Bytes)

/-- Go `Node.Sign`: refuses to sign while the DKG `Result` is nil, otherwise
partial-signs with the private share. -/
def Node.Sign (n : NodeState Point Scalar) (data : Bytes) :
    Except String Bytes :=
  match n.Result with
  | none => .error "DKG not completed"
  | some r => tblsSign r.Share data

/-- Go `Node.SignVRF`: the nil-`Result` gate, then hex-decode the payload,
partial-sign it, and answer with the hex-encoded share. -/
def Node.SignVRF (n : NodeState Point Scalar) (vrf : rng.SignVRF) :
    Except String rng.Signature :=
  match n.Result with
  | none => .error "DKG not completed"
  | some r => do
      let data ← wrapErr "failed to decode data" (hexDecodeString vrf.Data)
      let sig ← wrapErr "failed to sign data" (tblsSign r.Share data)
      return ⟨vrf.RequestID, hexEncodeToString sig⟩

/-- Go `Node.HandleSignature`: the nil-`Result` gate, hex-decode, append the
share to the pending set of its request id under the mutex, and notify the
wait channel when the appended set reaches the threshold. -/
def Node.HandleSignature (n : NodeState Point Scalar)
    (signature : rng.Signature) : NodeState Point Scalar × Except String Unit :=
  match n.Result with
  | none => (n, .error "DKG not completed")
  | some _ =>
    match hexDecodeString signature.Signature with
    | .error e => (n, .error ("failed to decode signature: " ++ e))
    | .ok sig =>
      let reqID := signature.RequestID
      let appended := n.requests reqID ++ [sig]
      let requests2 :=
        fun id => if id = reqID then appended else n.requests id
      let requestWait2 :=
        if Threshold ≤ appended.length then
          fun id => if id = reqID then (n.requestWait reqID).map (· + 1)
                    else n.requestWait id
        else n.requestWait
      ({ n with requests := requests2, requestWait := requestWait2 }, .ok ())

/-- Go `Node.WaitRNGRound`: hands back the wait channel of a request id. -/
def Node.WaitRNGRound (n : NodeState Point Scalar) (requestID : String) :
    Option Nat :=
  n.requestWait requestID

/-- Go `Node.StartRandomNumberGeneration`: publish the signing request
(`rndStart` is the outcome of `rnd.Start`), create the buffered wait
channel, sign locally, append the own share, and notify when the set
reaches the threshold. -/
def Node.StartRandomNumberGeneration (rndStart : Except String Unit)
    (n : NodeState Point Scalar) (requestID : String) (data : Bytes) :
    NodeState Point Scalar × Except String Unit :=
  match rndStart with
  | .error e => (n, .error ("failed to start rng protocol: " ++ e))
  | .ok _ =>
    let n1 := { n with requestWait :=
      fun id => if id = requestID then some 0 else n.requestWait id }
    match Node.Sign tblsSign n1 data with
    | .error e => (n1, .error ("failed to sign data: " ++ e))
    | .ok sig =>
      let appended := n1.requests requestID ++ [sig]
      let requests2 :=
        fun id => if id = requestID then appended else n1.requests id
      let requestWait2 :=
        if Threshold ≤ appended.length then
          fun id => if id = requestID then (n1.requestWait requestID).map (· + 1)
                    else n1.requestWait id
        else n1.requestWait
      ({ n1 with requests := requests2, requestWait := requestWait2 }, .ok ())

/-- Go `Node.RecoverBLSSignature`: refuses on an empty pending set, otherwise
recovers through the threshold scheme over the commitment polynomial with
`Threshold` and `n = 3`.  (With a non-empty set and a nil `Result` the Go
code dereferences a nil pointer and panics; the model returns an error in
that unreachable-by-contract corner.) -/
def Node.RecoverBLSSignature (n : NodeState Point Scalar)
    (requestID : String) (data : Bytes) : Except String Bytes :=
  let sigShares := n.requests requestID
  if sigShares.length = 0 then .error "no signature shares"
  else
    match n.Result with
    | none => .error "runtime error: invalid memory address or nil pointer dereference"
    | some r =>
      match tblsRecover r.Commits data sigShares Threshold 3 with
      | .error e => .error ("failed to recover signature: " ++ e)
      | .ok sig => .ok sig

/-- Go `strings.Contains` over character lists. -/
def listContainsSub (sub : List Char) : List Char → Bool
  | [] => sub.isEmpty
  | c :: rest => sub.isPrefixOf (c :: rest) || listContainsSub sub rest

/-- Go `strings.Contains`. -/
def strContains (s sub : String) : Bool :=
  listContainsSub sub.data s.data

/-- The peer loop of `Node.SendAndCollectVrfSignatures`: skip the own URL
(`:800<index>`), ask each remaining peer to sign (`sendReq` is the HTTP
call), and append each answer; a failed delivery is logged and skipped. -/
def Node.sendLoop (sendReq : String → Except String Bytes)
    (requestID : String) :
    List String → NodeState Point Scalar → NodeState Point Scalar
  | [], n => n
  | peerURL :: rest, n =>
    if strContains peerURL (":800" ++ toString n.index) then
      Node.sendLoop sendReq requestID rest n
    else
      match sendReq peerURL with
      | .error _ => Node.sendLoop sendReq requestID rest n
      | .ok signature =>
        Node.sendLoop sendReq requestID rest
          { n with requests := fun id =>
              if id = requestID then n.requests requestID ++ [signature]
              else n.requests id }

/-- Go `Node.SendAndCollectVrfSignatures` (HTTP-variant node): collect the
peers' partial signatures, then sign locally and append the own share. -/
def Node.SendAndCollectVrfSignatures (sendReq : String → Except String Bytes)
    (n : NodeState Point Scalar) (requestID : String) (peerURLs : List String)
    (data : Bytes) : NodeState Point Scalar × Except String Unit :=
  let n1 := Node.sendLoop sendReq requestID peerURLs n
  match Node.Sign tblsSign n1 data with
  | .error e => (n1, .error ("failed to sign data: " ++ e))
  | .ok sig =>
    ({ n1 with requests := fun id =>
        if id = requestID then n1.requests requestID ++ [sig]
        else n1.requests id }, .ok ())

end NodeOps

/-! ## Claims C2, C3, C5, C9: the VRF round -/

/-- Claim C2: For every payload, if the node's DKG `Result` is nil, `Sign`
and `SignVRF` return the `DKG not completed` error and produce no
signature; if the `Result` is non-nil, `Sign` hands the payload straight
to the threshold partial-signing primitive, and `SignVRF` (whose wire
payload is hex) decodes and partial-signs it, answering with the
hex-encoded share. -/
theorem C2_sign_requires_dkg_result
    {Point Scalar : Type}
    (tblsSign : PriShare Scalar → Bytes → Except String Bytes)
    (n : NodeState Point Scalar) (data : Bytes) (vrf : rng.SignVRF) :
    (n.Result = none →
      Node.Sign tblsSign n data = .error "DKG not completed" ∧
      Node.SignVRF tblsSign n vrf = .error "DKG not completed") ∧
    (∀ r, n.Result = some r →
      Node.Sign tblsSign n data = tblsSign r.Share data ∧
      ∀ d s, hexDecodeString vrf.Data = .ok d → tblsSign r.Share d = .ok s →
        Node.SignVRF tblsSign n vrf = .ok ⟨vrf.RequestID, hexEncodeToString s⟩) := by
  constructor
  · intro h
    unfold Node.Sign Node.SignVRF
    rw [h]
    exact ⟨rfl, rfl⟩
  · intro r h
    constructor
    · unfold Node.Sign
      rw [h]
    · intro d s hd hs
      unfold Node.SignVRF
      rw [h]
      rw [bind_ok_iff]
      refine ⟨d, wrapErr_ok hd, ?_⟩
      rw [bind_ok_iff]
      exact ⟨s, wrapErr_ok hs, pure_ok_iff.mpr rfl⟩

/-- Witness for C2: a node without and a node with a DKG result, and the
one-byte toy signing primitive. -/
theorem C2_sign_requires_dkg_result_witness :
    Node.Sign (fun (_ : PriShare Unit) _ => .ok [1])
        (⟨0, none, fun _ => [], fun _ => none⟩ : NodeState Unit Unit) []
      = .error "DKG not completed"
    ∧ Node.SignVRF (fun (_ : PriShare Unit) _ => .ok [1])
        (⟨0, none, fun _ => [], fun _ => none⟩ : NodeState Unit Unit)
        ⟨"req", "sender", "00"⟩ = .error "DKG not completed"
    ∧ Node.Sign (fun (_ : PriShare Unit) _ => .ok [1])
        (⟨0, some ⟨[], ⟨0, ()⟩⟩, fun _ => [], fun _ => none⟩ :
          NodeState Unit Unit) [] = .ok [1]
    ∧ Node.SignVRF (fun (_ : PriShare Unit) _ => .ok [1])
        (⟨0, some ⟨[], ⟨0, ()⟩⟩, fun _ => [], fun _ => none⟩ :
          NodeState Unit Unit) ⟨"req", "sender", "00"⟩
      = .ok ⟨"req", "01"⟩ := by
  refine ⟨?_, ?_, ?_, ?_⟩
  · exact ((C2_sign_requires_dkg_result (fun _ _ => .ok [1])
      ⟨0, none, fun _ => [], fun _ => none⟩ [] ⟨"req", "sender", "00"⟩).1 rfl).1
  · exact ((C2_sign_requires_dkg_result (fun _ _ => .ok [1])
      ⟨0, none, fun _ => [], fun _ => none⟩ [] ⟨"req", "sender", "00"⟩).1 rfl).2
  · exact (((C2_sign_requires_dkg_result (fun _ _ => .ok [1])
      ⟨0, some ⟨[], ⟨0, ()⟩⟩, fun _ => [], fun _ => none⟩ []
      ⟨"req", "sender", "00"⟩).2 ⟨[], ⟨0, ()⟩⟩ rfl).1).trans rfl
  · exact ((C2_sign_requires_dkg_result (fun _ _ => .ok [1])
      ⟨0, some ⟨[], ⟨0, ()⟩⟩, fun _ => [], fun _ => none⟩ []
      ⟨"req", "sender", "00"⟩).2 ⟨[], ⟨0, ()⟩⟩ rfl).2 [0] [1] rfl rfl

/-- Claim C3: Under the documented contract of the threshold-BLS recovery
primitive (it fails with fewer than `Threshold` shares and succeeds on at
least `Threshold` honest shares over the payload),
`RecoverBLSSignature` returns an error whenever the pending set of the
request id holds fewer than `Threshold = 2` partial signatures (the empty
set is rejected by the node's own guard), and succeeds once at least
`Threshold` honest shares are present. -/
theorem C3_recover_threshold
    {Point Scalar : Type}
    (tblsRecover :
      List Point → Bytes → List Bytes → Nat → Nat → Except String Bytes)
    (goodShare : Bytes → Bool)
    (hfail : ∀ commits msg shares, shares.length < Threshold →
        ∃ e, tblsRecover commits msg shares Threshold 3 = .error e)
    (hsucc : ∀ commits msg shares,
        (∀ sh ∈ shares, goodShare sh = true) → Threshold ≤ shares.length →
        ∃ s, tblsRecover commits msg shares Threshold 3 = .ok s)
    (n : NodeState Point Scalar) (requestID : String) (data : Bytes)
    (r : DKGResult Point Scalar) (hres : n.Result = some r) :
    ((n.requests requestID).length < Threshold →
      ∃ e, Node.RecoverBLSSignature tblsRecover n requestID data = .error e) ∧
    ((∀ sh ∈ n.requests requestID, goodShare sh = true) →
      Threshold ≤ (n.requests requestID).length →
      ∃ s, Node.RecoverBLSSignature tblsRecover n requestID data = .ok s) := by
  constructor
  · intro hlt
    unfold Node.RecoverBLSSignature
    by_cases h0 : (n.requests requestID).length = 0
    · rw [if_pos h0]
      exact ⟨_, rfl⟩
    · rw [if_neg h0, hres]
      obtain ⟨e, he⟩ := hfail r.Commits data (n.requests requestID) hlt
      exact ⟨"failed to recover signature: " ++ e, by simp [he]⟩
  · intro hgood hge
    unfold Node.RecoverBLSSignature
    have h0 : ¬ (n.requests requestID).length = 0 := by
      simp only [Threshold] at hge
      omega
    rw [if_neg h0, hres]
    obtain ⟨s, hs⟩ := hsucc r.Commits data (n.requests requestID) hgood hge
    exact ⟨s, by simp [hs]⟩

/-- Witness for C3: a toy recovery primitive that honours the contract, a
request with one pending share (recovery fails) and one with two (recovery
succeeds). -/
theorem C3_recover_threshold_witness :
    (∀ commits msg shares, shares.length < Threshold →
      ∃ e, (fun (_ : List Unit) (_ : Bytes) (shares : List Bytes) (t _ : Nat) =>
        if shares.length < t then (.error "not enough shares" : Except String Bytes)
        else .ok [9]) commits msg shares Threshold 3 = .error e)
    ∧ (∀ commits msg shares,
        (∀ sh ∈ shares, (fun (_ : Bytes) => true) sh = true) →
        Threshold ≤ shares.length →
        ∃ s, (fun (_ : List Unit) (_ : Bytes) (shares : List Bytes) (t _ : Nat) =>
          if shares.length < t then (.error "not enough shares" : Except String Bytes)
          else .ok [9]) commits msg shares Threshold 3 = .ok s)
    ∧ (∃ e, Node.RecoverBLSSignature
        (fun (_ : List Unit) (_ : Bytes) (shares : List Bytes) (t _ : Nat) =>
          if shares.length < t then .error "not enough shares" else .ok [9])
        (⟨0, some ⟨[], ⟨0, ()⟩⟩,
          fun id => if id = "a" then [[1]] else [[1], [2]],
          fun _ => none⟩ : NodeState Unit Unit) "a" [] = .error e)
    ∧ (∃ s, Node.RecoverBLSSignature
        (fun (_ : List Unit) (_ : Bytes) (shares : List Bytes) (t _ : Nat) =>
          if shares.length < t then .error "not enough shares" else .ok [9])
        (⟨0, some ⟨[], ⟨0, ()⟩⟩,
          fun id => if id = "a" then [[1]] else [[1], [2]],
          fun _ => none⟩ : NodeState Unit Unit) "b" [] = .ok s) := by
  have hfail : ∀ (commits : List Unit) (msg : Bytes) (shares : List Bytes),
      shares.length < Threshold →
      ∃ e, (if shares.length < Threshold
        then (.error "not enough shares" : Except String Bytes)
        else .ok [9]) = .error e :=
    fun _ _ _ h => ⟨"not enough shares", by rw [if_pos h]⟩
  have hsucc : ∀ (commits : List Unit) (msg : Bytes) (shares : List Bytes),
      (∀ sh ∈ shares, true = true) → Threshold ≤ shares.length →
      ∃ s, (if shares.length < Threshold
        then (.error "not enough shares" : Except String Bytes)
        else .ok [9]) = .ok s :=
    fun _ _ _ _ h => ⟨[9], by rw [if_neg (by omega)]⟩
  have hmain := C3_recover_threshold
    (fun (_ : List Unit) (_ : Bytes) (shares : List Bytes) (t _ : Nat) =>
      if shares.length < t then .error "not enough shares" else .ok [9])
    (fun _ => true) hfail hsucc
    ⟨0, some ⟨[], ⟨0, ()⟩⟩,
      fun id => if id = "a" then [[1]] else [[1], [2]], fun _ => none⟩
  exact ⟨hfail, fun c m sh hg hl => hsucc c m sh hg hl,
    (hmain "a" [] ⟨[], ⟨0, ()⟩⟩ rfl).1 (by decide),
    (hmain "b" [] ⟨[], ⟨0, ()⟩⟩ rfl).2 (by simp) (by decide)⟩

/-- Claim C5: For a request id whose wait channel exists (it is created by
`StartRandomNumberGeneration`), a completed `HandleSignature` call sends
exactly one notification on the channel when the appended pending set has
reached `Threshold` entries, and none while it is below; a completed
`StartRandomNumberGeneration` likewise notifies its fresh channel exactly
when the appended set is at the threshold; `WaitRNGRound` observes that
channel. -/
theorem C5_notify_iff_threshold
    {Point Scalar : Type}
    (tblsSign : PriShare Scalar → Bytes → Except String Bytes)
    (rndStart : Except String Unit)
    (n : NodeState Point Scalar) (signature : rng.Signature)
    (requestID : String) (data : Bytes) :
    (∀ id, Node.WaitRNGRound n id = n.requestWait id) ∧
    (∀ n' u k, Node.HandleSignature n signature = (n', .ok u) →
      n.requestWait signature.RequestID = some k →
      (Threshold ≤ (n'.requests signature.RequestID).length →
        n'.requestWait signature.RequestID = some (k + 1)) ∧
      ((n'.requests signature.RequestID).length < Threshold →
        n'.requestWait signature.RequestID = some k)) ∧
    (∀ n' u,
      Node.StartRandomNumberGeneration tblsSign rndStart n requestID data
        = (n', .ok u) →
      (Threshold ≤ (n'.requests requestID).length →
        n'.requestWait requestID = some 1) ∧
      ((n'.requests requestID).length < Threshold →
        n'.requestWait requestID = some 0)) := by
  refine ⟨fun id => rfl, ?_, ?_⟩
  · intro n' u k hstep hk
    unfold Node.HandleSignature at hstep
    cases hres : n.Result with
    | none => rw [hres] at hstep; cases hstep
    | some r =>
      rw [hres] at hstep
      cases hdec : hexDecodeString signature.Signature with
      | error e => rw [hdec] at hstep; cases hstep
      | ok sig =>
        rw [hdec] at hstep
        simp only [] at hstep
        cases hstep
        by_cases hth :
            Threshold ≤ (n.requests signature.RequestID).length + 1
        · constructor
          · intro _
            simp [hth, hk]
          · intro hlt
            simp at hlt
            omega
        · constructor
          · intro hge
            simp at hge
            omega
          · intro _
            simp [hth, hk]
  · intro n' u hstep
    unfold Node.StartRandomNumberGeneration at hstep
    cases hrs : rndStart with
    | error e => rw [hrs] at hstep; cases hstep
    | ok _ =>
      rw [hrs] at hstep
      simp only [] at hstep
      cases hsig : Node.Sign tblsSign
          { n with requestWait :=
            fun id => if id = requestID then some 0 else n.requestWait id }
          data with
      | error e => rw [hsig] at hstep; cases hstep
      | ok sig =>
        rw [hsig] at hstep
        cases hstep
        by_cases hth : Threshold ≤ (n.requests requestID).length + 1
        · constructor
          · intro _
            simp [hth]
          · intro hlt
            simp at hlt
            omega
        · constructor
          · intro hge
            simp at hge
            omega
          · intro _
            simp [hth]

/-- Witness for C5: a started request reaching the threshold on the second
share is notified exactly then; a first share and a fresh round notify
nothing. -/
theorem C5_notify_iff_threshold_witness :
    (Node.HandleSignature
      (⟨0, some ⟨[], ⟨0, ()⟩⟩, fun _ => [[5]],
        fun id => if id = "a" then some 0 else none⟩ : NodeState Unit Unit)
      ⟨"a", "02"⟩).1.requestWait "a" = some 1
    ∧ (Node.HandleSignature
      (⟨0, some ⟨[], ⟨0, ()⟩⟩, fun _ => [],
        fun id => if id = "a" then some 0 else none⟩ : NodeState Unit Unit)
      ⟨"a", "02"⟩).1.requestWait "a" = some 0
    ∧ (Node.StartRandomNumberGeneration (fun (_ : PriShare Unit) _ => .ok [1])
      (.ok ())
      (⟨0, some ⟨[], ⟨0, ()⟩⟩, fun _ => [], fun _ => none⟩ :
        NodeState Unit Unit) "b" []).1.requestWait "b" = some 0 := by
  refine ⟨?_, ?_, ?_⟩
  · exact ((C5_notify_iff_threshold (fun (_ : PriShare Unit) _ => .ok [1])
      (.ok ())
      ⟨0, some ⟨[], ⟨0, ()⟩⟩, fun _ => [[5]],
        fun id => if id = "a" then some 0 else none⟩
      ⟨"a", "02"⟩ "b" []).2.1 _ () 0 rfl rfl).1 (by decide)
  · exact ((C5_notify_iff_threshold (fun (_ : PriShare Unit) _ => .ok [1])
      (.ok ())
      ⟨0, some ⟨[], ⟨0, ()⟩⟩, fun _ => [],
        fun id => if id = "a" then some 0 else none⟩
      ⟨"a", "02"⟩ "b" []).2.1 _ () 0 rfl rfl).2 (by decide)
  · exact ((C5_notify_iff_threshold (fun (_ : PriShare Unit) _ => .ok [1])
      (.ok ())
      ⟨0, some ⟨[], ⟨0, ()⟩⟩, fun _ => [], fun _ => none⟩
      ⟨"a", "02"⟩ "b" []).2.2 _ () rfl).2 (by decide)

/-- Helper for C9: the peer-collection loop only ever appends to a
request's pending list. -/
theorem sendLoop_monotone {Point Scalar : Type}
    (sendReq : String → Except String Bytes) (requestID : String) :
    ∀ (peers : List String) (n : NodeState Point Scalar) (id : String),
      ∃ tl, (Node.sendLoop sendReq requestID peers n).requests id
        = n.requests id ++ tl := by
  intro peers
  induction peers with
  | nil => intro n id; exact ⟨[], by simp [Node.sendLoop]⟩
  | cons peerURL rest ih =>
    intro n id
    unfold Node.sendLoop
    by_cases hskip : strContains peerURL (":800" ++ toString n.index) = true
    · rw [if_pos hskip]
      exact ih n id
    · rw [if_neg hskip]
      cases hreq : sendReq peerURL with
      | error e => exact ih n id
      | ok signature =>
        obtain ⟨tl, htl⟩ := ih
          { n with requests := fun i =>
              if i = requestID then n.requests requestID ++ [signature]
              else n.requests i } id
        by_cases hid : id = requestID
        · subst hid
          refine ⟨[signature] ++ tl, ?_⟩
          rw [htl]
          simp
        · refine ⟨tl, ?_⟩
          rw [htl]
          simp [hid]

/-- Claim C9: The Pending Signature Set grows monotonically: each of
`HandleSignature`, `StartRandomNumberGeneration` and
`SendAndCollectVrfSignatures` leaves every per-request-id list either
unchanged or extended by appended entries, on the success and the error
path alike.  (`RecoverBLSSignature` reads the state and, by its very type
in this embedding, returns no modified state.) -/
theorem C9_pending_set_monotone
    {Point Scalar : Type}
    (tblsSign : PriShare Scalar → Bytes → Except String Bytes)
    (sendReq : String → Except String Bytes)
    (rndStart : Except String Unit)
    (n : NodeState Point Scalar) (signature : rng.Signature)
    (requestID : String) (peerURLs : List String) (data : Bytes) :
    (∀ id, ∃ tl, (Node.HandleSignature n signature).1.requests id
        = n.requests id ++ tl) ∧
    (∀ id, ∃ tl,
      (Node.StartRandomNumberGeneration tblsSign rndStart n requestID
        data).1.requests id = n.requests id ++ tl) ∧
    (∀ id, ∃ tl,
      (Node.SendAndCollectVrfSignatures tblsSign sendReq n requestID
        peerURLs data).1.requests id = n.requests id ++ tl) := by
  refine ⟨?_, ?_, ?_⟩
  · intro id
    unfold Node.HandleSignature
    cases n.Result with
    | none => exact ⟨[], by simp⟩
    | some r =>
      cases hexDecodeString signature.Signature with
      | error e => exact ⟨[], by simp⟩
      | ok sig =>
        by_cases hid : id = signature.RequestID
        · subst hid
          exact ⟨[sig], by simp⟩
        · exact ⟨[], by simp [hid]⟩
  · intro id
    unfold Node.StartRandomNumberGeneration
    cases rndStart with
    | error e => exact ⟨[], by simp⟩
    | ok _ =>
      simp only []
      cases Node.Sign tblsSign
          { n with requestWait :=
            fun i => if i = requestID then some 0 else n.requestWait i }
          data with
      | error e => exact ⟨[], by simp⟩
      | ok sig =>
        by_cases hid : id = requestID
        · subst hid
          exact ⟨[sig], by simp⟩
        · exact ⟨[], by simp [hid]⟩
  · intro id
    unfold Node.SendAndCollectVrfSignatures
    simp only []
    obtain ⟨tl1, htl1⟩ :=
      sendLoop_monotone sendReq requestID peerURLs n id
    cases Node.sendLoop sendReq requestID peerURLs n |>.Result with
    | none =>
        cases hsig : Node.Sign tblsSign
            (Node.sendLoop sendReq requestID peerURLs n) data with
        | error e => exact ⟨tl1, by simp [hsig, htl1]⟩
        | ok sig =>
          by_cases hid : id = requestID
          · subst hid
            exact ⟨tl1 ++ [sig], by simp [hsig, htl1]⟩
          · exact ⟨tl1, by simp [hsig, hid, htl1]⟩
    | some r =>
        cases hsig : Node.Sign tblsSign
            (Node.sendLoop sendReq requestID peerURLs n) data with
        | error e => exact ⟨tl1, by simp [hsig, htl1]⟩
        | ok sig =>
          by_cases hid : id = requestID
          · subst hid
            exact ⟨tl1 ++ [sig], by simp [hsig, htl1]⟩
          · exact ⟨tl1, by simp [hsig, hid, htl1]⟩

/-! ## The two board transports (`dkg/p2p_board.go`, `HttpBoard`)

Networking effects (HTTP posts, pubsub publication) do not touch the
board's local queues; only the local enqueues appear in the state.  The
per-kind Go channels of capacity 3 are modelled as unbounded queues: the
claims below concern what is enqueued, not the blocking behaviour of a
full channel. -/

/-- Go `HttpBoard`: static peer table plus the three per-kind inbound
queues. -/
structure HttpBoard (Point Scalar : Type) where
  index : Nat
  peers : List (Nat × String)
  deals : List (DealBundle Point)
  resps : List ResponseBundle
  justs : List (JustificationBundle Scalar)

/-- The loop of `HttpBoard.PushDeals`: the own index enqueues locally,
every other peer gets an HTTP post (no local effect, failures logged). -/
def HttpBoard.pushDealsLoop {Point Scalar : Type} (deal : DealBundle Point) :
    List (Nat × String) → HttpBoard Point Scalar → HttpBoard Point Scalar
  | [], b => b
  | kv :: rest, b =>
    if kv.1 = b.index then
      HttpBoard.pushDealsLoop deal rest { b with deals := b.deals ++ [deal] }
    else
      HttpBoard.pushDealsLoop deal rest b

/-- Go `HttpBoard.PushDeals`. -/
def HttpBoard.PushDeals {Point Scalar : Type} (b : HttpBoard Point Scalar)
    (deal : DealBundle Point) : HttpBoard Point Scalar :=
  HttpBoard.pushDealsLoop deal b.peers b

/-- The loop of `HttpBoard.PushResponses`. -/
def HttpBoard.pushResponsesLoop {Point Scalar : Type} (resp : ResponseBundle) :
    List (Nat × String) → HttpBoard Point Scalar → HttpBoard Point Scalar
  | [], b => b
  | kv :: rest, b =>
    if kv.1 = b.index then
      HttpBoard.pushResponsesLoop resp rest { b with resps := b.resps ++ [resp] }
    else
      HttpBoard.pushResponsesLoop resp rest b

/-- Go `HttpBoard.PushResponses`. -/
def HttpBoard.PushResponses {Point Scalar : Type} (b : HttpBoard Point Scalar)
    (resp : ResponseBundle) : HttpBoard Point Scalar :=
  HttpBoard.pushResponsesLoop resp b.peers b

/-- The loop of `HttpBoard.PushJustifications`. -/
def HttpBoard.pushJustificationsLoop {Point Scalar : Type}
    (bundle : JustificationBundle Scalar) :
    List (Nat × String) → HttpBoard Point Scalar → HttpBoard Point Scalar
  | [], b => b
  | kv :: rest, b =>
    if kv.1 = b.index then
      HttpBoard.pushJustificationsLoop bundle rest
        { b with justs := b.justs ++ [bundle] }
    else
      HttpBoard.pushJustificationsLoop bundle rest b

/-- Go `HttpBoard.PushJustifications`. -/
def HttpBoard.PushJustifications {Point Scalar : Type}
    (b : HttpBoard Point Scalar) (bundle : JustificationBundle Scalar) :
    HttpBoard Point Scalar :=
  HttpBoard.pushJustificationsLoop bundle b.peers b

/-- Go `HttpBoard.ReceiveDealBundle`. -/
def HttpBoard.ReceiveDealBundle {Point Scalar : Type}
    (b : HttpBoard Point Scalar) (bundle : DealBundle Point) :
    HttpBoard Point Scalar :=
  { b with deals := b.deals ++ [bundle] }

/-- Go `HttpBoard.ReceiveResponseBundle`. -/
def HttpBoard.ReceiveResponseBundle {Point Scalar : Type}
    (b : HttpBoard Point Scalar) (bundle : ResponseBundle) :
    HttpBoard Point Scalar :=
  { b with resps := b.resps ++ [bundle] }

/-- Go `HttpBoard.ReceiveJustificationBundle`. -/
def HttpBoard.ReceiveJustificationBundle {Point Scalar : Type}
    (b : HttpBoard Point Scalar) (bundle : JustificationBundle Scalar) :
    HttpBoard Point Scalar :=
  { b with justs := b.justs ++ [bundle] }

/-! The broadcast transport (`BoardP2P`). -/

/-- Modelled from the spec: the kind discriminators of the tagged wire
envelope (`MessageDealBundle` etc. of the `Message` type, whose source
file is absent from the repository snapshot); §4.1/§4.2 describe an
explicit bundle-kind discriminator multiplexing one shared channel. -/
def MessageDealBundle : Nat := 0

/-- Modelled from the spec: see `MessageDealBundle`. -/
def MessageResponseBundle : Nat := 1

/-- Modelled from the spec: see `MessageDealBundle`. -/
def MessageJustificationBundle : Nat := 2

/-- Modelled from the spec: the tagged wire envelope `Message` (kind
discriminator plus the kind-specific JSON payload) of §4.2/§6; its Go
source file is absent from the repository snapshot. -/
structure Message where
  MsgType : Nat
  Data : Json

/-- Modelled from the spec: `NewDealBundleMessage` marshals the bundle and
wraps it with its kind discriminator; a marshalling error is propagated. -/
def NewDealBundleMessage {Point : Type}
    (pmarshal : Point → Except String Bytes) (bundle : DealBundle Point) :
    Except String Message := do
  let dto ← MarshalDealBundle pmarshal bundle
  return ⟨MessageDealBundle, dto.toJson⟩

/-- Modelled from the spec: see `NewDealBundleMessage`. -/
def NewResponseBundleMessage (bundle : ResponseBundle) :
    Except String Message := do
  let dto ← MarshalResponseBundle bundle
  return ⟨MessageResponseBundle, dto.toJson⟩

/-- Modelled from the spec: see `NewDealBundleMessage`. -/
def NewJustificationBundleMessage {Scalar : Type}
    (smarshal : Scalar → Except String Bytes)
    (bundle : JustificationBundle Scalar) : Except String Message := do
  let dto ← MarshalJustificationBundle smarshal bundle
  return ⟨MessageJustificationBundle, dto.toJson⟩

/-- Modelled from the spec: decoding the wire envelope back into a
`Message` (kind discriminator plus payload). -/
def Message.fromJson : Json → Except String Message
  | .obj fs => do
      let t ← jUInt32 (jlookup fs "type")
      match jlookup fs "data" with
      | some d => return ⟨t, d⟩
      | none => return ⟨t, .null⟩
  | _ => .error "json: cannot unmarshal value into Message"

/-- Go `BoardP2P`: the own peer id and the three per-kind inbound queues. -/
structure BoardP2P (Point Scalar : Type) where
  self : String
  deals : List (DealBundle Point)
  resps : List ResponseBundle
  justs : List (JustificationBundle Scalar)

/-- Go `BoardP2P.PushDeals`: marshalling failures are logged and abort the
push (nothing is enqueued); a publish failure is only logged, and the
bundle is then enqueued into the own deals queue. -/
def BoardP2P.PushDeals {Point Scalar : Type}
    (pmarshal : Point → Except String Bytes) (b : BoardP2P Point Scalar)
    (bundle : DealBundle Point) : BoardP2P Point Scalar :=
  match NewDealBundleMessage pmarshal bundle with
  | .error _ => b
  | .ok _ => { b with deals := b.deals ++ [bundle] }

/-- Go `BoardP2P.PushResponses`. -/
def BoardP2P.PushResponses {Point Scalar : Type} (b : BoardP2P Point Scalar)
    (bundle : ResponseBundle) : BoardP2P Point Scalar :=
  match NewResponseBundleMessage bundle with
  | .error _ => b
  | .ok _ => { b with resps := b.resps ++ [bundle] }

/-- Go `BoardP2P.PushJustifications`. -/
def BoardP2P.PushJustifications {Point Scalar : Type}
    (smarshal : Scalar → Except String Bytes) (b : BoardP2P Point Scalar)
    (bundle : JustificationBundle Scalar) : BoardP2P Point Scalar :=
  match NewJustificationBundleMessage smarshal bundle with
  | .error _ => b
  | .ok _ => { b with justs := b.justs ++ [bundle] }

/-- A pubsub delivery: the reported origin and the payload as a JSON value
(`none` when the raw bytes do not parse as JSON). -/
structure PubSubMsg where
  ReceivedFrom : String
  Data : Option Json

/-- One iteration of `BoardP2P.readLoop`: deliveries reported as
originating from the node itself are skipped before any decoding; others
are decoded as an envelope and dispatched to the matching queue, with
every decode failure logged and skipped. -/
def BoardP2P.readLoopStep {Point Scalar : Type}
    (punmarshal : Bytes → Except String Point)
    (sunmarshal : Bytes → Except String Scalar)
    (b : BoardP2P Point Scalar) (msg : PubSubMsg) : BoardP2P Point Scalar :=
  if msg.ReceivedFrom = b.self then b
  else
    match msg.Data with
    | none => b
    | some j =>
      match Message.fromJson j with
      | .error _ => b
      | .ok m =>
        if m.MsgType = MessageDealBundle then
          match DealBundleFromJSON punmarshal m.Data with
          | .error _ => b
          | .ok bundle => { b with deals := b.deals ++ [bundle] }
        else if m.MsgType = MessageResponseBundle then
          match ResponseBundleFromJSON m.Data with
          | .error _ => b
          | .ok bundle => { b with resps := b.resps ++ [bundle] }
        else if m.MsgType = MessageJustificationBundle then
          match JustificationBundleFromJSON sunmarshal m.Data with
          | .error _ => b
          | .ok bundle => { b with justs := b.justs ++ [bundle] }
        else b

/-! The rng pubsub protocol read loops (`rng/protocol.go`). -/

/-- One iteration of `Protocol.readSubIn`: skip self-originated
deliveries before decoding; otherwise decode the signing request, let the
node sign it, and publish the resulting signature on the output topic
(the returned list holds what is published; failures are logged and
publish nothing). -/
def Protocol.readSubInStep
    (handleSignVRF : rng.SignVRF → Except String rng.Signature)
    (self : String) (receivedFrom : String)
    (payload : Option rng.SignVRF) : List rng.Signature :=
  if receivedFrom = self then []
  else
    match payload with
    | none => []
    | some signVRF =>
      match handleSignVRF signVRF with
      | .error _ => []
      | .ok signature => [signature]

/-- One iteration of `Protocol.readSubOut`: skip self-originated
deliveries before decoding; otherwise decode the signature and hand it to
the node's signature handler (a handler error is logged and leaves the
state as the handler left it — the handler itself returns the state). -/
def Protocol.readSubOutStep {σ : Type}
    (handleSignature : rng.Signature → σ → σ × Except String Unit)
    (self : String) (receivedFrom : String)
    (payload : Option rng.Signature) (st : σ) : σ :=
  if receivedFrom = self then st
  else
    match payload with
    | none => st
    | some signature => (handleSignature signature st).1

/-! ## Claims C6, C7: board loopback and self-filtering -/

theorem pushDealsLoop_extends {Point Scalar : Type} (deal : DealBundle Point) :
    ∀ (peers : List (Nat × String)) (b : HttpBoard Point Scalar),
      ∃ tl, (HttpBoard.pushDealsLoop deal peers b).deals = b.deals ++ tl
        ∧ ((∃ kv ∈ peers, kv.1 = b.index) → deal ∈ tl) := by
  intro peers
  induction peers with
  | nil =>
    intro b
    exact ⟨[], by simp [HttpBoard.pushDealsLoop], by simp⟩
  | cons kv rest ih =>
    intro b
    unfold HttpBoard.pushDealsLoop
    by_cases hkv : kv.1 = b.index
    · rw [if_pos hkv]
      obtain ⟨tl, h1, _⟩ := ih { b with deals := b.deals ++ [deal] }
      exact ⟨[deal] ++ tl, by simpa using h1, fun _ => by simp⟩
    · rw [if_neg hkv]
      obtain ⟨tl, h1, h2⟩ := ih b
      refine ⟨tl, h1, fun ⟨kv', hkv', hidx⟩ => ?_⟩
      rcases List.mem_cons.mp hkv' with rfl | hmem
      · exact absurd hidx hkv
      · exact h2 ⟨kv', hmem, hidx⟩

theorem pushResponsesLoop_extends {Point Scalar : Type}
    (resp : ResponseBundle) :
    ∀ (peers : List (Nat × String)) (b : HttpBoard Point Scalar),
      ∃ tl, (HttpBoard.pushResponsesLoop resp peers b).resps = b.resps ++ tl
        ∧ ((∃ kv ∈ peers, kv.1 = b.index) → resp ∈ tl) := by
  intro peers
  induction peers with
  | nil =>
    intro b
    exact ⟨[], by simp [HttpBoard.pushResponsesLoop], by simp⟩
  | cons kv rest ih =>
    intro b
    unfold HttpBoard.pushResponsesLoop
    by_cases hkv : kv.1 = b.index
    · rw [if_pos hkv]
      obtain ⟨tl, h1, _⟩ := ih { b with resps := b.resps ++ [resp] }
      exact ⟨[resp] ++ tl, by simpa using h1, fun _ => by simp⟩
    · rw [if_neg hkv]
      obtain ⟨tl, h1, h2⟩ := ih b
      refine ⟨tl, h1, fun ⟨kv', hkv', hidx⟩ => ?_⟩
      rcases List.mem_cons.mp hkv' with rfl | hmem
      · exact absurd hidx hkv
      · exact h2 ⟨kv', hmem, hidx⟩

theorem pushJustificationsLoop_extends {Point Scalar : Type}
    (bundle : JustificationBundle Scalar) :
    ∀ (peers : List (Nat × String)) (b : HttpBoard Point Scalar),
      ∃ tl, (HttpBoard.pushJustificationsLoop bundle peers b).justs
          = b.justs ++ tl
        ∧ ((∃ kv ∈ peers, kv.1 = b.index) → bundle ∈ tl) := by
  intro peers
  induction peers with
  | nil =>
    intro b
    exact ⟨[], by simp [HttpBoard.pushJustificationsLoop], by simp⟩
  | cons kv rest ih =>
    intro b
    unfold HttpBoard.pushJustificationsLoop
    by_cases hkv : kv.1 = b.index
    · rw [if_pos hkv]
      obtain ⟨tl, h1, _⟩ := ih { b with justs := b.justs ++ [bundle] }
      exact ⟨[bundle] ++ tl, by simpa using h1, fun _ => by simp⟩
    · rw [if_neg hkv]
      obtain ⟨tl, h1, h2⟩ := ih b
      refine ⟨tl, h1, fun ⟨kv', hkv', hidx⟩ => ?_⟩
      rcases List.mem_cons.mp hkv' with rfl | hmem
      · exact absurd hidx hkv
      · exact h2 ⟨kv', hmem, hidx⟩

/-- Claim C6: Publishing a bundle enqueues that same bundle into the
publisher's own local incoming queue of the matching kind, on both
transports: the HTTP board enqueues at its own entry of the peer table
(which contains the own index), the broadcast board enqueues after a
successful envelope encoding (the response encoding cannot fail; a deal
or justification encoding fails only on a primitive serialization
error). -/
theorem C6_publish_loopback
    {Point Scalar : Type}
    (pmarshal : Point → Except String Bytes)
    (smarshal : Scalar → Except String Bytes)
    (hb : HttpBoard Point Scalar) (pb : BoardP2P Point Scalar)
    (deal : DealBundle Point) (resp : ResponseBundle)
    (just : JustificationBundle Scalar)
    (hown : ∃ kv ∈ hb.peers, kv.1 = hb.index) :
    (∃ tl, (hb.PushDeals deal).deals = hb.deals ++ tl ∧ deal ∈ tl) ∧
    (∃ tl, (hb.PushResponses resp).resps = hb.resps ++ tl ∧ resp ∈ tl) ∧
    (∃ tl, (hb.PushJustifications just).justs = hb.justs ++ tl ∧ just ∈ tl) ∧
    (∀ m, NewDealBundleMessage pmarshal deal = .ok m →
      (BoardP2P.PushDeals pmarshal pb deal).deals = pb.deals ++ [deal]) ∧
    ((BoardP2P.PushResponses pb resp).resps = pb.resps ++ [resp]) ∧
    (∀ m, NewJustificationBundleMessage smarshal just = .ok m →
      (BoardP2P.PushJustifications smarshal pb just).justs
        = pb.justs ++ [just]) := by
  refine ⟨?_, ?_, ?_, ?_, ?_, ?_⟩
  · obtain ⟨tl, h1, h2⟩ := pushDealsLoop_extends deal hb.peers hb
    exact ⟨tl, h1, h2 hown⟩
  · obtain ⟨tl, h1, h2⟩ := pushResponsesLoop_extends resp hb.peers hb
    exact ⟨tl, h1, h2 hown⟩
  · obtain ⟨tl, h1, h2⟩ := pushJustificationsLoop_extends just hb.peers hb
    exact ⟨tl, h1, h2 hown⟩
  · intro m hm
    unfold BoardP2P.PushDeals
    rw [hm]
  · rfl
  · intro m hm
    unfold BoardP2P.PushJustifications
    rw [hm]

/-- Witness for C6: the three-peer table of `main.go` with own index 0,
and the trivial point/scalar codec. -/
theorem C6_publish_loopback_witness :
    (∃ kv ∈ [(0, "http://localhost:8000"), (1, "http://localhost:8001"),
             (2, "http://localhost:8002")], kv.1 = 0)
    ∧ ((⟨0, [(0, "http://localhost:8000"), (1, "http://localhost:8001"),
             (2, "http://localhost:8002")], [], [], []⟩ :
        HttpBoard Unit Unit).PushDeals
          ⟨1, [⟨2, [171]⟩], [()], [1], [255]⟩).deals
        = [] ++ [⟨1, [⟨2, [171]⟩], [()], [1], [255]⟩]
    ∧ (BoardP2P.PushDeals (fun (_ : Unit) => (.ok [] : Except String Bytes))
        (⟨"peerA", [], [], []⟩ : BoardP2P Unit Unit)
        ⟨1, [⟨2, [171]⟩], [()], [1], [255]⟩).deals
        = [] ++ [⟨1, [⟨2, [171]⟩], [()], [1], [255]⟩]
    ∧ (BoardP2P.PushResponses (⟨"peerA", [], [], []⟩ : BoardP2P Unit Unit)
        ⟨1, [⟨0, 0⟩], [2], [3]⟩).resps = [] ++ [⟨1, [⟨0, 0⟩], [2], [3]⟩] := by
  have hown : ∃ kv ∈ [((0 : Nat), "http://localhost:8000"),
      (1, "http://localhost:8001"), (2, "http://localhost:8002")],
      kv.1 = (0 : Nat) := ⟨(0, "http://localhost:8000"), by simp, rfl⟩
  have hmain := C6_publish_loopback
    (fun (_ : Unit) => (.ok [] : Except String Bytes))
    (fun (_ : Unit) => (.ok [] : Except String Bytes))
    ⟨0, [(0, "http://localhost:8000"), (1, "http://localhost:8001"),
         (2, "http://localhost:8002")], [], [], []⟩
    ⟨"peerA", [], [], []⟩
    ⟨1, [⟨2, [171]⟩], [()], [1], [255]⟩ ⟨1, [⟨0, 0⟩], [2], [3]⟩
    ⟨2, [⟨1, ()⟩], [4], [5]⟩ hown
  exact ⟨hown, by decide, hmain.2.2.2.1 ⟨MessageDealBundle,
    DealBundleDTO.toJson ⟨1, [⟨2, "ab"⟩], [""], "01", "ff"⟩⟩ rfl,
    hmain.2.2.2.2.1⟩

/-- Claim C7: Neither the broadcast board's read loop nor the rng
protocol's two subscription loops dispatch a message whose reported
origin equals the node's own peer id: such a delivery is skipped before
any decoding, leaving the queues untouched, publishing nothing, and
invoking no handler. -/
theorem C7_self_messages_skipped
    {Point Scalar σ : Type}
    (punmarshal : Bytes → Except String Point)
    (sunmarshal : Bytes → Except String Scalar)
    (b : BoardP2P Point Scalar) (msg : PubSubMsg)
    (handleSignVRF : rng.SignVRF → Except String rng.Signature)
    (handleSignature : rng.Signature → σ → σ × Except String Unit)
    (self receivedFrom : String) (pin : Option rng.SignVRF)
    (pout : Option rng.Signature) (st : σ) :
    (msg.ReceivedFrom = b.self →
      BoardP2P.readLoopStep punmarshal sunmarshal b msg = b) ∧
    (receivedFrom = self →
      Protocol.readSubInStep handleSignVRF self receivedFrom pin = []) ∧
    (receivedFrom = self →
      Protocol.readSubOutStep handleSignature self receivedFrom pout st
        = st) := by
  refine ⟨fun h => ?_, fun h => ?_, fun h => ?_⟩
  · unfold BoardP2P.readLoopStep
    rw [if_pos h]
  · unfold Protocol.readSubInStep
    rw [if_pos h]
  · unfold Protocol.readSubOutStep
    rw [if_pos h]

/-- Witness for C7: a self-originated delivery carrying a decodable deal
payload is nevertheless dropped by all three loops. -/
theorem C7_self_messages_skipped_witness :
    BoardP2P.readLoopStep (fun _ => .ok ()) (fun _ => .ok ())
      (⟨"peerA", [], [], []⟩ : BoardP2P Unit Unit)
      ⟨"peerA", some (.obj [("type", .num 0), ("data", .null)])⟩
      = (⟨"peerA", [], [], []⟩ : BoardP2P Unit Unit)
    ∧ Protocol.readSubInStep (fun v => .ok ⟨v.RequestID, "00"⟩) "peerA"
        "peerA" (some ⟨"req", "peerA", "00"⟩) = []
    ∧ Protocol.readSubOutStep
        (fun (_ : rng.Signature) (k : Nat) => (k + 1, .ok ())) "peerA"
        "peerA" (some ⟨"req", "00"⟩) 0 = 0 := by
  have hmain := C7_self_messages_skipped (fun _ => (.ok () : Except String Unit))
    (fun _ => (.ok () : Except String Unit))
    (⟨"peerA", [], [], []⟩ : BoardP2P Unit Unit)
    ⟨"peerA", some (.obj [("type", .num 0), ("data", .null)])⟩
    (fun v => .ok ⟨v.RequestID, "00"⟩)
    (fun (_ : rng.Signature) (k : Nat) => (k + 1, .ok ()))
    "peerA" "peerA" (some ⟨"req", "peerA", "00"⟩) (some ⟨"req", "00"⟩) 0
  exact ⟨hmain.1 rfl, hmain.2.1 rfl, hmain.2.2 rfl⟩

/-! ## Claim C4: randomness derivation -/

/-- Claim C4: `GenerateRandomNumber` is a deterministic pure total function:
for every byte string it returns exactly the SHA-256 digest of the
signature bytes read as an unsigned big-endian integer, identical inputs
yield identical outputs, and (being a total function into `Nat`) it has
no failure mode. -/
theorem C4_generate_random_number_pure (tblsSig : Bytes) :
    GenerateRandomNumber tblsSig = bytesToNat (sha256Bytes tblsSig)
    ∧ ∀ other : Bytes, other = tblsSig →
        GenerateRandomNumber other = GenerateRandomNumber tblsSig :=
  ⟨rfl, fun _ h => h ▸ rfl⟩

/-- Witness for C4, at the empty signature (whose digest the development
pins to the published SHA-256 test vector in `sha256Bytes_nil`). -/
theorem C4_generate_random_number_pure_witness :
    GenerateRandomNumber [] = bytesToNat (sha256Bytes [])
    ∧ GenerateRandomNumber [] = GenerateRandomNumber [] :=
  ⟨(C4_generate_random_number_pure []).1,
   (C4_generate_random_number_pure []).2 [] rfl⟩

/-! ## Claim C8: the pre-round liveness gate (`waitForPeers`, `main.go`) -/

/-- The static peer table of `main.go`. -/
def knownPeers : List String :=
  ["http://localhost:8000", "http://localhost:8001", "http://localhost:8002"]

/-- Go `maxRetries := 30`. -/
def maxRetries : Nat := 30

/-- Go `retryInterval := 1 * time.Second`, in seconds. -/
def retryIntervalSeconds : Nat := 1

/-- One probe round of `waitForPeers`: every peer's `/health` endpoint is
probed in order (`probe url = true` models an HTTP 200 answer), the own
URL is skipped, and the round breaks at the first unhealthy peer. -/
def checkPeersHealthy (probe : String → Bool) (selfURL : String) :
    List String → Bool
  | [] => true
  | peerURL :: rest =>
    let url := peerURL ++ "/health"
    if url = selfURL then checkPeersHealthy probe selfURL rest
    else if probe url then checkPeersHealthy probe selfURL rest
    else false

/-- The retry loop of `waitForPeers`: at most `fuel` rounds, returning
success at the first all-healthy round (`probe` may answer differently
per round — its first argument is the round number). -/
def waitForPeersLoop (probe : Nat → String → Bool) (selfURL : String) :
    Nat → Nat → Except String Unit
  | _, 0 => .error "timed out waiting for peers to be healthy"
  | retry, fuel + 1 =>
    if checkPeersHealthy (probe retry) selfURL knownPeers then .ok ()
    else waitForPeersLoop probe selfURL (retry + 1) fuel

/-- Go `waitForPeers`: the own URL is derived from the `http_port` flag; the
budget is `maxRetries` rounds. -/
def waitForPeers (probe : Nat → String → Bool) (httpPort : Nat) :
    Except String Unit :=
  waitForPeersLoop probe
    ("http://localhost:" ++ toString httpPort ++ "/health") 0 maxRetries

/-- The break-at-first-failure probe round accepts exactly when every
non-self peer answers the probe. -/
theorem checkPeersHealthy_iff (probe : String → Bool) (selfURL : String) :
    ∀ peers : List String,
      checkPeersHealthy probe selfURL peers = true ↔
      ∀ p ∈ peers, p ++ "/health" = selfURL ∨ probe (p ++ "/health") = true := by
  intro peers
  induction peers with
  | nil => simp [checkPeersHealthy]
  | cons peerURL rest ih =>
    unfold checkPeersHealthy
    simp only []
    by_cases hself : peerURL ++ "/health" = selfURL
    · rw [if_pos hself, ih]
      constructor
      · intro h p hp
        rcases List.mem_cons.mp hp with rfl | hmem
        · exact Or.inl hself
        · exact h p hmem
      · intro h p hp
        exact h p (List.mem_cons_of_mem _ hp)
    · rw [if_neg hself]
      by_cases hprobe : probe (peerURL ++ "/health") = true
      · rw [if_pos hprobe, ih]
        constructor
        · intro h p hp
          rcases List.mem_cons.mp hp with rfl | hmem
          · exact Or.inr hprobe
          · exact h p hmem
        · intro h p hp
          exact h p (List.mem_cons_of_mem _ hp)
      · simp only [if_neg hprobe]
        constructor
        · intro h
          cases h
        · intro h
          rcases h peerURL (List.mem_cons_self _ _) with hs | hp
          · exact absurd hs hself
          · exact absurd hp hprobe

theorem waitForPeersLoop_ok_iff (probe : Nat → String → Bool)
    (selfURL : String) :
    ∀ (fuel retry : Nat),
      waitForPeersLoop probe selfURL retry fuel = .ok () ↔
      ∃ i < fuel,
        checkPeersHealthy (probe (retry + i)) selfURL knownPeers = true := by
  intro fuel
  induction fuel with
  | zero =>
    intro retry
    simp [waitForPeersLoop]
  | succ fuel ih =>
    intro retry
    unfold waitForPeersLoop
    by_cases h : checkPeersHealthy (probe retry) selfURL knownPeers = true
    · rw [if_pos h]
      constructor
      · intro _
        exact ⟨0, by omega, by simpa using h⟩
      · intro _
        rfl
    · rw [if_neg h, ih (retry + 1)]
      constructor
      · rintro ⟨i, hi, hh⟩
        refine ⟨i + 1, by omega, ?_⟩
        rwa [show retry + (i + 1) = retry + 1 + i by omega]
      · rintro ⟨i, hi, hh⟩
        cases i with
        | zero => exact absurd (by simpa using hh) h
        | succ j =>
          refine ⟨j, by omega, ?_⟩
          rwa [show retry + 1 + j = retry + (j + 1) by omega]

theorem waitForPeersLoop_cases (probe : Nat → String → Bool)
    (selfURL : String) :
    ∀ (fuel retry : Nat),
      waitForPeersLoop probe selfURL retry fuel = .ok ()
      ∨ waitForPeersLoop probe selfURL retry fuel
          = .error "timed out waiting for peers to be healthy" := by
  intro fuel
  induction fuel with
  | zero => intro retry; exact Or.inr rfl
  | succ fuel ih =>
    intro retry
    unfold waitForPeersLoop
    by_cases h : checkPeersHealthy (probe retry) selfURL knownPeers = true
    · rw [if_pos h]; exact Or.inl rfl
    · rw [if_neg h]; exact ih (retry + 1)

/-- Claim C8: `waitForPeers` performs at most `maxRetries = 30` probe rounds
at the fixed `retryInterval` of one second; it returns nil exactly when
some round within the budget sees every configured peer other than the
node itself answer the `/health` probe with HTTP 200, and otherwise
exhausts the budget and aborts with the timed-out error. -/
theorem C8_wait_for_peers_bounded (probe : Nat → String → Bool)
    (httpPort : Nat) :
    maxRetries = 30 ∧ retryIntervalSeconds = 1 ∧
    (waitForPeers probe httpPort = .ok () ↔
      ∃ i < 30, ∀ p ∈ knownPeers,
        p ++ "/health" = "http://localhost:" ++ toString httpPort ++ "/health"
        ∨ probe i (p ++ "/health") = true) ∧
    (¬ (∃ i < 30, ∀ p ∈ knownPeers,
        p ++ "/health" = "http://localhost:" ++ toString httpPort ++ "/health"
        ∨ probe i (p ++ "/health") = true) →
      waitForPeers probe httpPort
        = .error "timed out waiting for peers to be healthy") := by
  have hiff : waitForPeers probe httpPort = .ok () ↔
      ∃ i < 30, ∀ p ∈ knownPeers,
        p ++ "/health" = "http://localhost:" ++ toString httpPort ++ "/health"
        ∨ probe i (p ++ "/health") = true := by
    unfold waitForPeers
    rw [waitForPeersLoop_ok_iff]
    constructor
    · rintro ⟨i, hi, hh⟩
      refine ⟨i, hi, ?_⟩
      have hall := (checkPeersHealthy_iff (probe (0 + i)) _ knownPeers).mp hh
      simpa using hall
    · rintro ⟨i, hi, hh⟩
      refine ⟨i, hi, (checkPeersHealthy_iff (probe (0 + i)) _ knownPeers).mpr ?_⟩
      simpa using hh
  refine ⟨rfl, rfl, hiff, fun hno => ?_⟩
  rcases waitForPeersLoop_cases probe
      ("http://localhost:" ++ toString httpPort ++ "/health") maxRetries 0 with
    hok | herr
  · exact absurd (hiff.mp hok) hno
  · exact herr

/-- Witness for C8: with every probe answering 200 the gate passes; with
every probe failing it exhausts the budget and aborts. -/
theorem C8_wait_for_peers_bounded_witness :
    waitForPeers (fun _ _ => true) 8000 = .ok ()
    ∧ waitForPeers (fun _ _ => false) 8000
        = .error "timed out waiting for peers to be healthy" := by
  constructor
  · exact (C8_wait_for_peers_bounded (fun _ _ => true) 8000).2.2.1.mpr
      ⟨0, by omega, fun p _ => Or.inr rfl⟩
  · refine (C8_wait_for_peers_bounded (fun _ _ => false) 8000).2.2.2 ?_
    rintro ⟨i, -, hall⟩
    rcases hall "http://localhost:8001" (by simp [knownPeers]) with hs | hp
    · exact absurd hs (by decide)
    · exact absurd hp (by decide)

/-! ## Claim C10: the `/deals` and `/responses` HTTP handlers (`main.go`,
first variant, with the `HttpBoard`-backed node) -/

/-- Go `Node.SaveDeal` (HTTP-board node): forward the decoded bundle into the
board's deal queue. -/
def Node.SaveDeal {Point Scalar : Type} (b : HttpBoard Point Scalar)
    (dealBundle : DealBundle Point) : HttpBoard Point Scalar :=
  b.ReceiveDealBundle dealBundle

/-- Go `Node.SaveResponseBundle` (HTTP-board node): a nil bundle is replaced
by the empty `ResponseBundle{}` before being enqueued. -/
def Node.SaveResponseBundle {Point Scalar : Type} (b : HttpBoard Point Scalar)
    (responseBundle : Option ResponseBundle) : HttpBoard Point Scalar :=
  match responseBundle with
  | some rb => b.ReceiveResponseBundle rb
  | none => b.ReceiveResponseBundle ⟨0, [], [], []⟩

/-- Go `Server.handleDeals`: non-POST is rejected with 405; a body that fails
to decode as a `DealBundle` (either not JSON — `none` — or a malformed
DTO) is rejected with 400; otherwise the bundle is saved and 200 is
returned. -/
def Server.handleDeals {Point Scalar : Type}
    (punmarshal : Bytes → Except String Point) (method : String)
    (body : Option Json) (b : HttpBoard Point Scalar) :
    Nat × HttpBoard Point Scalar :=
  if method ≠ "POST" then (405, b)
  else
    match body with
    | none => (400, b)
    | some j =>
      match DealBundleFromJSON punmarshal j with
      | .error _ => (400, b)
      | .ok dealBundle => (200, Node.SaveDeal b dealBundle)

/-- Go `Server.handleResponses`: non-POST is rejected with 405; the decoded
bundle is kept only when decoding succeeded *and* its signature is
non-empty, otherwise `nil` is passed on; the handler then saves and
answers 200 unconditionally. -/
def Server.handleResponses {Point Scalar : Type} (method : String)
    (body : Option Json) (b : HttpBoard Point Scalar) :
    Nat × HttpBoard Point Scalar :=
  if method ≠ "POST" then (405, b)
  else
    let bundle : Option ResponseBundle :=
      match body with
      | some j =>
        match ResponseBundleFromJSON j with
        | .ok responseBundle =>
            if 0 < responseBundle.Signature.length then some responseBundle
            else none
        | .error _ => none
      | none => none
    (200, Node.SaveResponseBundle b bundle)

/-- Claim C10: Every POST to `/responses` is answered 200 OK — also when the
body fails to decode as a `ResponseBundle` or decodes to a bundle with an
empty signature, in which case the empty bundle is enqueued in its place —
whereas a POST to `/deals` whose body fails to decode as a `DealBundle` is
answered 400 Bad Request and enqueues nothing. -/
theorem C10_responses_lenient_deals_strict
    {Point Scalar : Type} (punmarshal : Bytes → Except String Point)
    (b : HttpBoard Point Scalar) :
    (∀ body, (Server.handleResponses "POST" body b).1 = 200) ∧
    (Server.handleResponses "POST" none b
      = (200, { b with resps := b.resps ++ [⟨0, [], [], []⟩] })) ∧
    (∀ j e, ResponseBundleFromJSON j = .error e →
      Server.handleResponses "POST" (some j) b
        = (200, { b with resps := b.resps ++ [⟨0, [], [], []⟩] })) ∧
    (∀ j rb, ResponseBundleFromJSON j = .ok rb → rb.Signature = [] →
      Server.handleResponses "POST" (some j) b
        = (200, { b with resps := b.resps ++ [⟨0, [], [], []⟩] })) ∧
    (Server.handleDeals punmarshal "POST" none b = (400, b)) ∧
    (∀ j e, DealBundleFromJSON punmarshal j = .error e →
      Server.handleDeals punmarshal "POST" (some j) b = (400, b)) := by
  refine ⟨?_, rfl, ?_, ?_, rfl, ?_⟩
  · intro body
    unfold Server.handleResponses
    rw [if_neg (by simp)]
  · intro j e he
    unfold Server.handleResponses
    rw [if_neg (by simp)]
    simp only [he]
    rfl
  · intro j rb hok hsig
    unfold Server.handleResponses
    rw [if_neg (by simp)]
    simp only [hok, hsig]
    rfl
  · intro j e he
    unfold Server.handleDeals
    rw [if_neg (by simp)]
    simp only [he]

/-- Witness for C10: a body that is a bare JSON string decodes as neither
bundle kind; `/responses` still answers 200 (enqueueing the empty bundle)
while `/deals` answers 400. -/
theorem C10_responses_lenient_deals_strict_witness :
    ResponseBundleFromJSON (.str "junk")
      = .error "json: cannot unmarshal value into ResponseBundleDTO"
    ∧ Server.handleResponses "POST" (some (.str "junk"))
        (⟨0, [], [], [], []⟩ : HttpBoard Unit Unit)
      = (200, ⟨0, [], [], [⟨0, [], [], []⟩], []⟩)
    ∧ DealBundleFromJSON (fun _ => (.ok () : Except String Unit)) (.str "junk")
      = .error "json: cannot unmarshal value into DealBundleDTO"
    ∧ Server.handleDeals (fun _ => (.ok () : Except String Unit)) "POST"
        (some (.str "junk")) (⟨0, [], [], [], []⟩ : HttpBoard Unit Unit)
      = (400, ⟨0, [], [], [], []⟩) := by
  have hmain := C10_responses_lenient_deals_strict
    (fun _ => (.ok () : Except String Unit))
    (⟨0, [], [], [], []⟩ : HttpBoard Unit Unit)
  exact ⟨rfl,
    hmain.2.2.1 (.str "junk")
      "json: cannot unmarshal value into ResponseBundleDTO" rfl,
    rfl,
    hmain.2.2.2.2.2 (.str "junk")
      "json: cannot unmarshal value into DealBundleDTO" rfl⟩
